import Mathlib

/- Verification development for the grc-20 knowledge-graph interchange codec.

   Shallow embedding conventions:
   - byte strings on the wire are lists of naturals, each below 256;
   - machine floats (f64, f32) are represented by their IEEE-754 bit
     patterns as naturals, with NaN tests and ordering defined on bits;
   - Rust signed integers are Lean Int (range checks made explicit where
     the code depends on them);
   - fallible functions return Except.

   The repository sources contain two coexisting model variants (see the
   spec, section 9): model/value.rs carries DataType with Timestamp (7) and
   Ref (11), while codec/value.rs is written against a model where Schedule
   replaces Timestamp, Ref is absent and numeric values carry units.  Both
   are embedded below: the plain names follow model/*.rs and codec/edit.rs,
   and the namespace Codec follows codec/value.rs. -/

namespace Grc20

/-- Byte strings on the wire: lists of naturals, each intended below 256. -/
abbrev Bytes := List Nat

/-- Identifiers are 16 raw bytes (src model/id.rs). -/
abbrev Id := Bytes

/-- Nil identifier: 16 zero bytes (src model/id.rs NIL_ID). -/
def NIL_ID : Id := List.replicate 16 0

deriving instance DecidableEq for Except

/-- Limit from src limits.rs. -/
def MAX_VARINT_BYTES : Nat := 10

/-- Limit from src limits.rs. -/
def MAX_STRING_LEN : Nat := 16 * 1024 * 1024

/-- Limit from src limits.rs. -/
def MAX_BYTES_LEN : Nat := 64 * 1024 * 1024

/-- Limit from src limits.rs. -/
def MAX_EMBEDDING_DIMS : Nat := 65536

/-- Limit from src limits.rs. -/
def MAX_EMBEDDING_BYTES : Nat := 4 * MAX_EMBEDDING_DIMS

/-- Limit from src limits.rs. -/
def MAX_OPS_PER_EDIT : Nat := 1000000

/-- Limit from src limits.rs. -/
def MAX_VALUES_PER_ENTITY : Nat := 10000

/-- Limit from src limits.rs. -/
def MAX_AUTHORS : Nat := 1000

/-- Limit from src limits.rs. -/
def MAX_DICT_SIZE : Nat := 1000000

/-- Limit from src limits.rs. -/
def MAX_EDIT_SIZE : Nat := 256 * 1024 * 1024

/-- Limit from src limits.rs. -/
def MAX_POSITION_LEN : Nat := 64

/-- Magic bytes for uncompressed edits, ASCII GRC2 (src limits.rs). -/
def MAGIC_UNCOMPRESSED : Bytes := [71, 82, 67, 50]

/-- Magic bytes for zstd-compressed edits, ASCII GRC2Z (src limits.rs). -/
def MAGIC_COMPRESSED : Bytes := [71, 82, 67, 50, 90]

/-- Current binary format version (src limits.rs). -/
def FORMAT_VERSION : Nat := 1

/-- Decode errors (src error.rs, reconstructed from the variants used
    throughout src and listed in spec section 7). -/
inductive DecodeError where
  | unexpectedEof (context : String)
  | invalidMagic (found : Bytes)
  | unsupportedVersion (version : Nat)
  | invalidBool (value : Nat)
  | indexOutOfBounds (dict : String) (index : Nat) (size : Nat)
  | lengthExceedsLimit (field : String) (len : Nat) (max : Nat)
  | invalidDataType (dataType : Nat)
  | invalidEmbeddingSubType (subType : Nat)
  | floatIsNan
  | latitudeOutOfRange (latBits : Nat)
  | longitudeOutOfRange (lonBits : Nat)
  | decimalMantissaNotMinimal
  | decimalNotNormalized
  | invalidPositionChar (c : Nat)
  | malformedEncoding (context : String)
  | decompressionFailed (msg : String)
  | uncompressedSizeMismatch (declared : Nat) (actual : Nat)
  | varintTooLong
deriving DecidableEq, Repr

/-- Encode errors (src error.rs, reconstructed; spec section 7). -/
inductive EncodeError where
  | floatIsNan
  | latitudeOutOfRange (latBits : Nat)
  | longitudeOutOfRange (lonBits : Nat)
  | decimalNotNormalized
  | embeddingDimensionMismatch (subType : Nat) (dims : Nat) (dataLen : Nat)
  | positionTooLong
  | invalidPositionChar (c : Nat)
  | invalidDate (reason : String)
  | compressionFailed (msg : String)
deriving DecidableEq, Repr

/-- Zigzag encoding of a signed 64-bit integer, the arithmetic reading of
    the bit formula of spec section 4.1. -/
def zigzag_encode (n : Int) : Nat :=
  if 0 ≤ n then (2 * n).toNat else (-2 * n - 1).toNat

/-- Zigzag decoding, inverse of zigzag_encode (spec section 4.1). -/
def zigzag_decode (u : Nat) : Int :=
  if u % 2 = 0 then (u / 2 : Nat) else -((u / 2 : Nat) : Int) - 1

/-- LEB128 writer loop, structurally recursive on the remaining byte
    budget; ten bytes always suffice for a 64-bit value (spec section
    4.1). -/
def write_varint_go : Nat → Nat → Bytes
  | 0, n => [n % 128]
  | fuel + 1, n =>
    if n < 128 then [n]
    else (n % 128 + 128) :: write_varint_go fuel (n / 128)

/-- Modelled from the spec: LEB128 unsigned varint writer (spec section
    4.1); codec/primitives.rs is not under src/. -/
def write_varint (n : Nat) : Bytes :=
  write_varint_go 9 n

/-- Modelled from the spec: LEB128 varint reader loop; the index i counts
    bytes consumed so far, the tenth byte may only contribute its low bit
    (spec section 4.1). Structurally recursive on the input bytes. -/
def read_varint_go (context : String) (i : Nat) (shift : Nat) (acc : Nat) :
    Bytes → Except DecodeError (Nat × Bytes)
  | [] => .error (.unexpectedEof context)
  | b :: rest =>
    let payload := b % 128
    if i = 9 ∧ 2 ≤ payload then .error .varintTooLong
    else
      let acc' := acc + payload * 2 ^ shift
      if b < 128 then .ok (acc', rest)
      else if i = 9 then .error .varintTooLong
      else read_varint_go context (i + 1) (shift + 7) acc' rest

/-- Modelled from the spec: unsigned varint reader (spec section 4.1). -/
def read_varint (context : String) (input : Bytes) :
    Except DecodeError (Nat × Bytes) :=
  read_varint_go context 0 0 0 input

/-- Modelled from the spec: zigzag signed varint reader (spec section 4.1). -/
def read_signed_varint (context : String) (input : Bytes) :
    Except DecodeError (Int × Bytes) := do
  let (u, rest) ← read_varint context input
  return (zigzag_decode u, rest)

/-- Modelled from the spec: zigzag signed varint writer (spec section 4.1). -/
def write_signed_varint (n : Int) : Bytes :=
  write_varint (zigzag_encode n)

/-- Modelled from the spec: single byte reader (spec section 4.1). -/
def read_byte (context : String) : Bytes → Except DecodeError (Nat × Bytes)
  | [] => .error (.unexpectedEof context)
  | b :: rest => .ok (b, rest)

/-- Modelled from the spec: reads exactly n raw bytes, UnexpectedEof when
    fewer remain (spec sections 4.1 and 5). -/
def read_bytes (n : Nat) (context : String) (input : Bytes) :
    Except DecodeError (Bytes × Bytes) :=
  if n ≤ input.length then .ok (input.take n, input.drop n)
  else .error (.unexpectedEof context)

/-- Little-endian byte list to natural. -/
def leBytesToNat (bs : Bytes) : Nat :=
  bs.foldr (fun b acc => b + 256 * acc) 0

/-- Natural to k little-endian bytes. -/
def natToLEBytes : Nat → Nat → Bytes
  | 0, _ => []
  | k + 1, n => n % 256 :: natToLEBytes k (n / 256)

/-- Modelled from the spec: fixed 8-byte little-endian f64 reader, the
    float represented by its bit pattern (spec section 4.1). -/
def read_f64 (context : String) (input : Bytes) :
    Except DecodeError (Nat × Bytes) := do
  let (bs, rest) ← read_bytes 8 context input
  return (leBytesToNat bs, rest)

/-- IEEE-754 double NaN test on the bit pattern: exponent all ones and a
    non-zero fraction. -/
def f64IsNan (bits : Nat) : Bool :=
  decide ((bits / 2 ^ 52) % 2 ^ 11 = 2047) && decide (bits % 2 ^ 52 ≠ 0)

/-- IEEE-754 single NaN test on the bit pattern. -/
def f32IsNan (bits : Nat) : Bool :=
  decide ((bits / 2 ^ 23) % 2 ^ 8 = 255) && decide (bits % 2 ^ 23 ≠ 0)

/-- Sign-magnitude integer key realising the IEEE-754 order of non-NaN
    doubles on bit patterns. -/
def f64Key (bits : Nat) : Int :=
  if (bits / 2 ^ 63) % 2 = 1 then -((bits % 2 ^ 63 : Nat) : Int)
  else (bits % 2 ^ 63 : Nat)

/-- IEEE-754 comparison a less-or-equal b on bit patterns; false when either
    argument is NaN, as in Rust. -/
def f64le (a b : Nat) : Bool :=
  !f64IsNan a && !f64IsNan b && decide (f64Key a ≤ f64Key b)

/-- IEEE-754 strict comparison on bit patterns; false when either argument
    is NaN. -/
def f64lt (a b : Nat) : Bool :=
  !f64IsNan a && !f64IsNan b && decide (f64Key a < f64Key b)

/-- Bit pattern of the double 90.0. -/
def F64_90 : Nat := 0x4056800000000000

/-- Bit pattern of the double negative 90.0. -/
def F64_NEG_90 : Nat := 0xC056800000000000

/-- Bit pattern of the double 180.0. -/
def F64_180 : Nat := 0x4066800000000000

/-- Bit pattern of the double negative 180.0. -/
def F64_NEG_180 : Nat := 0xC066800000000000

/-- UTF-8 continuation byte test. -/
def utf8Cont (b : Nat) : Bool := decide (128 ≤ b) && decide (b ≤ 191)

/-- Modelled from the spec: UTF-8 validity of a byte string, as enforced by
    string decoding (spec section 4.1, strings are validated UTF-8 on
    decode); matches the Rust str validation automaton. -/
def utf8Valid : Bytes → Bool
  | [] => true
  | b :: rest =>
    if b ≤ 127 then utf8Valid rest
    else
      match rest with
      | [] => false
      | c1 :: r1 =>
        if 194 ≤ b ∧ b ≤ 223 then utf8Cont c1 && utf8Valid r1
        else
          match r1 with
          | [] => false
          | c2 :: r2 =>
            if b = 224 then
              decide (160 ≤ c1) && decide (c1 ≤ 191) && utf8Cont c2 && utf8Valid r2
            else if 225 ≤ b ∧ b ≤ 236 then
              utf8Cont c1 && utf8Cont c2 && utf8Valid r2
            else if b = 237 then
              decide (128 ≤ c1) && decide (c1 ≤ 159) && utf8Cont c2 && utf8Valid r2
            else if 238 ≤ b ∧ b ≤ 239 then
              utf8Cont c1 && utf8Cont c2 && utf8Valid r2
            else
              match r2 with
              | [] => false
              | c3 :: r3 =>
                if b = 240 then
                  decide (144 ≤ c1) && decide (c1 ≤ 191) && utf8Cont c2 &&
                    utf8Cont c3 && utf8Valid r3
                else if 241 ≤ b ∧ b ≤ 243 then
                  utf8Cont c1 && utf8Cont c2 && utf8Cont c3 && utf8Valid r3
                else if b = 244 then
                  decide (128 ≤ c1) && decide (c1 ≤ 143) && utf8Cont c2 &&
                    utf8Cont c3 && utf8Valid r3
                else false

/-- Modelled from the spec: length-prefixed UTF-8 string reader with a
    field-specific maximum checked before reading (spec section 4.1). -/
def read_str (maxLen : Nat) (context : String) (input : Bytes) :
    Except DecodeError (Bytes × Bytes) := do
  let (len, rest) ← read_varint context input
  if len > maxLen then
    .error (.lengthExceedsLimit context len maxLen)
  else
    let (s, rest') ← read_bytes len context rest
    if utf8Valid s then .ok (s, rest')
    else .error (.malformedEncoding context)

/-- Modelled from the spec: fixed 16-byte identifier reader (spec 4.1). -/
def read_id (context : String) (input : Bytes) :
    Except DecodeError (Id × Bytes) :=
  read_bytes 16 context input

/-- Modelled from the spec: identifier-vector reader, varint count bounded
    by a caller-supplied maximum then 16 bytes per entry (spec 4.1). -/
def read_id_vec_go : Nat → String → Bytes → List Id →
    Except DecodeError (List Id × Bytes)
  | 0, _, input, acc => .ok (acc.reverse, input)
  | k + 1, context, input, acc => do
    let (id, rest) ← read_id context input
    read_id_vec_go k context rest (id :: acc)

/-- Modelled from the spec: identifier-vector reader (spec section 4.1). -/
def read_id_vec (maxN : Nat) (context : String) (input : Bytes) :
    Except DecodeError (List Id × Bytes) := do
  let (count, rest) ← read_varint context input
  if count > maxN then
    .error (.lengthExceedsLimit context count maxN)
  else
    read_id_vec_go count context rest []

/-- Modelled from the spec: length-prefixed byte/string writer (spec 4.1). -/
def write_bytes_prefixed (bs : Bytes) : Bytes :=
  write_varint bs.length ++ bs

/-- Modelled from the spec: identifier-vector writer, varint count then the
    raw 16-byte identifiers (spec section 4.1). -/
def write_id_vec (ids : List Id) : Bytes :=
  write_varint ids.length ++ ids.flatMap (fun i => i)

/-- Data types with fixed wire codes (src model/value.rs, the variant that
    carries Timestamp at code 7 and Ref at code 11). -/
inductive DataType where
  | bool
  | int64
  | float64
  | decimal
  | text
  | bytes
  | timestamp
  | date
  | point
  | embedding
  | ref
deriving DecidableEq, Repr, Fintype

/-- Wire code of a data type (src model/value.rs repr u8 discriminants). -/
def DataType.toU8 : DataType → Nat
  | .bool => 1
  | .int64 => 2
  | .float64 => 3
  | .decimal => 4
  | .text => 5
  | .bytes => 6
  | .timestamp => 7
  | .date => 8
  | .point => 9
  | .embedding => 10
  | .ref => 11

/-- DataType from its wire representation (src model/value.rs from_u8). -/
def DataType.from_u8 (v : Nat) : Option DataType :=
  match v with
  | 1 => some .bool
  | 2 => some .int64
  | 3 => some .float64
  | 4 => some .decimal
  | 5 => some .text
  | 6 => some .bytes
  | 7 => some .timestamp
  | 8 => some .date
  | 9 => some .point
  | 10 => some .embedding
  | 11 => some .ref
  | _ => none

/-- Embedding sub-types (src model/value.rs). -/
inductive EmbeddingSubType where
  | float32
  | int8
  | binary
deriving DecidableEq, Repr, Fintype

/-- Wire code of an embedding sub-type (src model/value.rs). -/
def EmbeddingSubType.toU8 : EmbeddingSubType → Nat
  | .float32 => 0
  | .int8 => 1
  | .binary => 2

/-- EmbeddingSubType from its wire representation (src model/value.rs). -/
def EmbeddingSubType.from_u8 (v : Nat) : Option EmbeddingSubType :=
  match v with
  | 0 => some .float32
  | 1 => some .int8
  | 2 => some .binary
  | _ => none

/-- Bytes needed for the given number of dimensions (src model/value.rs
    bytes_for_dims; div_ceil for the binary packing). -/
def EmbeddingSubType.bytes_for_dims : EmbeddingSubType → Nat → Nat
  | .float32, dims => dims * 4
  | .int8, dims => dims
  | .binary, dims => (dims + 7) / 8

/-- Decimal mantissa representation (src model/value.rs): signed 64-bit or
    arbitrary-precision big-endian two's-complement bytes. -/
inductive DecimalMantissa where
  | i64 (v : Int)
  | big (bytes : Bytes)
deriving DecidableEq, Repr

/-- Trailing-zeros test as written in src model/value.rs
    has_trailing_zeros; for the big form the source checks only whether the
    final BYTE is zero (the source comments call it a simplification). -/
def DecimalMantissa.has_trailing_zeros : DecimalMantissa → Bool
  | .i64 v => decide (v ≠ 0) && decide (v % 10 = 0)
  | .big bytes => decide (bytes ≠ []) && decide (bytes.getLast? = some 0)

/-- Zero test (src model/value.rs is_zero). -/
def DecimalMantissa.is_zero : DecimalMantissa → Bool
  | .i64 v => decide (v = 0)
  | .big bytes => bytes.all (fun b => b = 0)

/-- Typed values (src model/value.rs, the Timestamp/Ref variant). Floats
    are carried as bit patterns. -/
inductive Value where
  | bool (b : Bool)
  | int64 (v : Int)
  | float64 (bits : Nat)
  | decimal (exponent : Int) (mantissa : DecimalMantissa)
  | text (value : Bytes) (language : Option Id)
  | bytes (data : Bytes)
  | timestamp (micros : Int)
  | date (s : Bytes)
  | point (latBits : Nat) (lonBits : Nat)
  | embedding (subType : EmbeddingSubType) (dims : Nat) (data : Bytes)
  | ref (id : Id)
deriving DecidableEq, Repr

/-- Data type of a value (src model/value.rs data_type). -/
def Value.dataType : Value → DataType
  | .bool _ => .bool
  | .int64 _ => .int64
  | .float64 _ => .float64
  | .decimal _ _ => .decimal
  | .text _ _ => .text
  | .bytes _ => .bytes
  | .timestamp _ => .timestamp
  | .date _ => .date
  | .point _ _ => .point
  | .embedding _ _ _ => .embedding
  | .ref _ => .ref

/-- Complete four-byte chunks of a byte string, as Rust chunks_exact 4. -/
def chunks4 : Bytes → List Bytes
  | a :: b :: c :: d :: rest => [a, b, c, d] :: chunks4 rest
  | _ => []

/-- Little-endian f32 NaN test over a four-byte chunk, as in the sources
    f32 from_le_bytes followed by is_nan. -/
def chunkIsNanF32 (chunk : Bytes) : Bool :=
  f32IsNan (leBytesToNat chunk)

/-- Value-level validation (src model/value.rs validate), returning the
    error description or none. -/
def Value.validate : Value → Option String
  | .float64 bits =>
    if f64IsNan bits then some ("NaN is not allowed in Float64") else none
  | .decimal exponent mantissa =>
    if mantissa.is_zero && decide (exponent ≠ 0) then
      some ("zero DECIMAL must have exponent 0")
    else if !mantissa.is_zero && mantissa.has_trailing_zeros then
      some ("DECIMAL mantissa has trailing zeros (not normalized)")
    else none
  | .point latBits lonBits =>
    if f64lt latBits F64_NEG_90 || f64lt F64_90 latBits then
      some ("latitude out of range")
    else if f64lt lonBits F64_NEG_180 || f64lt F64_180 lonBits then
      some ("longitude out of range")
    else if f64IsNan latBits || f64IsNan lonBits then
      some ("NaN is not allowed in Point coordinates")
    else none
  | .embedding subType dims data =>
    if data.length ≠ subType.bytes_for_dims dims then
      some ("embedding data length does not match dims")
    else if subType = .float32 && (chunks4 data).any chunkIsNanF32 then
      some ("NaN is not allowed in float32 embedding")
    else none
  | _ => none

/-- Property-value pair (src model/value.rs PropertyValue). -/
structure PropertyValue where
  property : Id
  value : Value
deriving DecidableEq, Repr

/-- Lowercase hex digit byte for a nibble (src model/id.rs format_id uses
    the standard 02x formatting). -/
def hexDigitByte (n : Nat) : Nat :=
  if n < 10 then 48 + n else 87 + n

/-- Formats an identifier as 32 lowercase hex characters with no hyphens
    (src model/id.rs format_id); output as bytes. -/
def format_id (id : Id) : Bytes :=
  id.flatMap (fun b => [hexDigitByte (b / 16), hexDigitByte (b % 16)])

/-- Value of an ASCII hex digit byte, or none. -/
def hexVal (b : Nat) : Option Nat :=
  if 48 ≤ b ∧ b ≤ 57 then some (b - 48)
  else if 97 ≤ b ∧ b ≤ 102 then some (b - 87)
  else if 65 ≤ b ∧ b ≤ 70 then some (b - 55)
  else none

/-- Hex-digit run of Rust u8 from_str_radix: one or more hex digits whose
    value stays below 256. -/
def fromHexDigits (digits : Bytes) : Option Nat :=
  if digits = [] then none
  else
    match digits.mapM hexVal with
    | none => none
    | some ds =>
      if ds.foldl (fun acc d => acc * 16 + d) 0 < 256 then
        some (ds.foldl (fun acc d => acc * 16 + d) 0)
      else none

/-- Semantics of Rust u8 from_str_radix with radix 16 on a two-byte chunk:
    an optional leading plus sign, then one or more hex digits, value below
    256.  A chunk that is not valid UTF-8 also fails in the source via
    from_utf8; every such chunk contains a byte that is not an ASCII hex
    digit or plus sign, so the behaviour coincides. -/
def fromStrRadix16U8 (chunk : Bytes) : Option Nat :=
  fromHexDigits (if chunk.head? = some 43 then chunk.tail else chunk)

/-- Consecutive two-byte chunks, as Rust chunks 2 on an even-length
    string. -/
def chunks2 : Bytes → List Bytes
  | a :: b :: rest => [a, b] :: chunks2 rest
  | [a] => [[a]]
  | [] => []

/-- Parses an identifier from hex (src model/id.rs parse_id): hyphens are
    removed anywhere, the remainder must be 32 bytes long, and each
    two-byte chunk is parsed with u8 from_str_radix radix 16. -/
def parse_id (s : Bytes) : Option Id :=
  let hex := s.filter (fun c => c ≠ 45)
  if hex.length ≠ 32 then none
  else (chunks2 hex).mapM fromStrRadix16U8

/-- ASCII digit test, as Rust is_ascii_digit. -/
def isAsciiDigit (b : Nat) : Bool := decide (48 ≤ b) && decide (b ≤ 57)

/-- Numeric value of a list of ASCII digit bytes. -/
def digitsToNat (s : Bytes) : Nat :=
  s.foldl (fun acc b => acc * 10 + (b - 48)) 0

/-- Digit run of Rust u32 from_str: one or more ASCII digits whose value
    stays below 2 to the 32. -/
def parseU32Digits (digits : Bytes) : Option Nat :=
  if digits = [] then none
  else if digits.all isAsciiDigit then
    if digitsToNat digits < 2 ^ 32 then some (digitsToNat digits) else none
  else none

/-- Semantics of Rust u32 from_str, sign handling: an optional single
    leading plus sign before the digit run. -/
def parseU32 (s : Bytes) : Option Nat :=
  parseU32Digits (if s.head? = some 43 then s.tail else s)

/-- Splitter helper: current segment and the later segments. -/
def splitDashAux : Bytes → Bytes × List Bytes
  | [] => ([], [])
  | b :: rest =>
    let (cur, segs) := splitDashAux rest
    if b = 45 then ([], cur :: segs) else (b :: cur, segs)

/-- Split on the hyphen byte, keeping empty segments, as Rust split on the
    minus character (always at least one segment). -/
def splitDash (s : Bytes) : List Bytes :=
  let (cur, segs) := splitDashAux s
  cur :: segs

/-- Year-part validation (src codec/value.rs validate_year_part): at least
    four bytes, all ASCII digits, a BCE year must not be all zeros, and the
    value must parse as u32. -/
def validate_year_part (s : Bytes) (is_bce : Bool) : Except DecodeError Nat :=
  if s.length < 4 then
    .error (.malformedEncoding ("DATE year must be at least 4 digits"))
  else if !s.all isAsciiDigit then
    .error (.malformedEncoding ("DATE year contains non-digit characters"))
  else if is_bce && s.all (fun c => c = 48) then
    .error (.malformedEncoding ("DATE -0000 is invalid"))
  else
    match parseU32 s with
    | some y => .ok y
    | none => .error (.malformedEncoding ("DATE year is not a valid number"))

/-- Month-part validation (src codec/value.rs validate_month_part): two
    bytes parsing as u32 in 1..=12. -/
def validate_month_part (s : Bytes) : Except DecodeError Nat :=
  if s.length ≠ 2 then
    .error (.malformedEncoding ("DATE month must be 2 digits"))
  else
    match parseU32 s with
    | none => .error (.malformedEncoding ("DATE month is not a valid number"))
    | some month =>
      if 1 ≤ month ∧ month ≤ 12 then .ok month
      else .error (.malformedEncoding ("DATE month out of range"))

/-- Maximum day for a month (src codec/value.rs validate_day_part table;
    February allows 29, leap handling deferred). -/
def maxDayOfMonth (month : Nat) : Nat :=
  match month with
  | 1 | 3 | 5 | 7 | 8 | 10 | 12 => 31
  | 4 | 6 | 9 | 11 => 30
  | 2 => 29
  | _ => 31

/-- Day-part validation (src codec/value.rs validate_day_part). -/
def validate_day_part (s : Bytes) (month : Nat) : Except DecodeError Nat :=
  if s.length ≠ 2 then
    .error (.malformedEncoding ("DATE day must be 2 digits"))
  else
    match parseU32 s with
    | none => .error (.malformedEncoding ("DATE day is not a valid number"))
    | some day =>
      if day = 0 ∨ day > maxDayOfMonth month then
        .error (.malformedEncoding ("DATE day out of range"))
      else .ok day

/-- ISO-8601 calendar date validation (src codec/value.rs
    validate_iso8601_date): optional leading hyphen for BCE, then one to
    three hyphen-separated components. -/
def validate_iso8601_date (s : Bytes) : Except DecodeError Unit :=
  if s = [] then .error (.malformedEncoding ("DATE string is empty"))
  else
    let negative := decide (s.head? = some 45)
    let rest := if s.head? = some 45 then s.tail else s
    match splitDash rest with
    | [y] =>
      match validate_year_part y negative with
      | .error e => .error e
      | .ok _ => .ok ()
    | [y, m] =>
      match validate_year_part y negative with
      | .error e => .error e
      | .ok _ =>
        match validate_month_part m with
        | .error e => .error e
        | .ok _ => .ok ()
    | [y, m, d] =>
      match validate_year_part y negative with
      | .error e => .error e
      | .ok _ =>
        match validate_month_part m with
        | .error e => .error e
        | .ok month =>
          match validate_day_part d month with
          | .error e => .error e
          | .ok _ => .ok ()
    | _ => .error (.malformedEncoding ("DATE has too many components"))

/-- Date validation on encode (src codec/value.rs
    validate_iso8601_date_for_encode), converting the decode error. -/
def validate_iso8601_date_for_encode (s : Bytes) : Except EncodeError Unit :=
  match validate_iso8601_date s with
  | .ok _ => .ok ()
  | .error e =>
    match e with
    | .malformedEncoding context => .error (.invalidDate context)
    | _ => .error (.invalidDate ("invalid format"))

/-- ASCII alphanumeric test, as Rust is_ascii_alphanumeric. -/
def isAsciiAlphanumeric (b : Nat) : Bool :=
  (decide (48 ≤ b) && decide (b ≤ 57)) ||
  (decide (65 ≤ b) && decide (b ≤ 90)) ||
  (decide (97 ≤ b) && decide (b ≤ 122))

/-- Position-string validation on encode (src codec/value.rs
    validate_position). -/
def validate_position (pos : Bytes) : Except EncodeError Unit :=
  if pos.length > MAX_POSITION_LEN then .error .positionTooLong
  else
    match pos.find? (fun c => !isAsciiAlphanumeric c) with
    | some c => .error (.invalidPositionChar c)
    | none => .ok ()

/-- Position-string reader with validation (src codec/value.rs
    decode_position). -/
def decode_position (input : Bytes) : Except DecodeError (Bytes × Bytes) := do
  let (pos, rest) ← read_str MAX_POSITION_LEN ("position") input
  match pos.find? (fun c => !isAsciiAlphanumeric c) with
  | some c => .error (.invalidPositionChar c)
  | none => .ok (pos, rest)

/-- Zero test for a big-endian two's-complement mantissa (src
    codec/value.rs is_big_mantissa_zero). -/
def is_big_mantissa_zero (bytes : Bytes) : Bool :=
  bytes.all (fun b => b = 0)

/-- The positive-branch remainder recurrence of src codec/value.rs
    is_big_mantissa_divisible_by_10: over big-endian bytes, remainder
    becomes remainder times 6 plus the byte, modulo 10 (256 is congruent to
    6 modulo 10). -/
def posFoldRem (bytes : Bytes) : Nat :=
  bytes.foldl (fun r b => (r * 6 + b) % 10) 0

/-- Absolute value modulo 10 of a negative two's-complement number (src
    codec/value.rs twos_complement_abs_mod_10): run the recurrence over the
    bitwise-inverted bytes (255 minus the byte, for bytes) and add one. -/
def twos_complement_abs_mod_10 (bytes : Bytes) : Nat :=
  (bytes.foldl (fun r b => (r * 6 + (255 - b)) % 10) 0 + 1) % 10

/-- Divisibility-by-10 test on a big-endian two's-complement mantissa (src
    codec/value.rs is_big_mantissa_divisible_by_10); a leading byte of 128
    or more marks a negative number (the source tests the high bit). -/
def is_big_mantissa_divisible_by_10 (bytes : Bytes) : Bool :=
  match bytes with
  | [] => true
  | b0 :: _ =>
    if 128 ≤ b0 then decide (twos_complement_abs_mod_10 bytes = 0)
    else decide (posFoldRem bytes = 0)

/-- Unsigned value of big-endian bytes. -/
def bigU (bytes : Bytes) : Nat :=
  bytes.foldl (fun acc b => acc * 256 + b) 0

/-- Signed integer represented by a big-endian two's-complement byte
    string (the mathematical reading used to judge the divisibility
    code). -/
def twosComplementInt (bytes : Bytes) : Int :=
  if 128 ≤ bytes.headD 0 then
    (bigU bytes : Int) - (2 : Int) ^ (8 * bytes.length)
  else (bigU bytes : Int)

/-- Wrap an integer to the signed 32-bit range, as the Rust cast as i32. -/
def i32Wrap (n : Int) : Int :=
  (n + 2 ^ 31) % 2 ^ 32 - 2 ^ 31

namespace Codec

/-- Data types of the codec variant (src codec/value.rs): the exhaustive
    match in decode_value fixes the constructor set, in which Schedule
    replaces Timestamp and Ref is absent (spec section 9). -/
inductive DataType where
  | bool
  | int64
  | float64
  | decimal
  | text
  | bytes
  | date
  | schedule
  | point
  | embedding
deriving DecidableEq, Repr, Fintype

/-- Wire dictionaries as used by src codec/value.rs decoding: languages and
    units are resolved through one-based indices, properties through
    zero-based ones.  The model variant this codec file compiles against is
    not under src/; the field set is the one the codec functions use. -/
structure WireDictionaries where
  properties : List (Id × DataType) := []
  relationTypes : List Id := []
  languages : List Id := []
  objects : List Id := []
  units : List Id := []
deriving DecidableEq, Repr

/-- Values of the codec variant (src codec/value.rs): numeric values carry
    an optional unit, Point carries an optional altitude, Schedule replaces
    Timestamp and Ref is absent.  Floats are carried as bit patterns. -/
inductive Value where
  | bool (b : Bool)
  | int64 (value : Int) (unit : Option Id)
  | float64 (bits : Nat) (unit : Option Id)
  | decimal (exponent : Int) (mantissa : DecimalMantissa) (unit : Option Id)
  | text (value : Bytes) (language : Option Id)
  | bytes (data : Bytes)
  | date (s : Bytes)
  | schedule (s : Bytes)
  | point (lonBits : Nat) (latBits : Nat) (altBits : Option Nat)
  | embedding (subType : EmbeddingSubType) (dims : Nat) (data : Bytes)
deriving DecidableEq, Repr

/-- Resolves an optional one-based dictionary index, zero meaning none
    (the pattern shared by unit and language lookups in src
    codec/value.rs). -/
def resolveOptIndex (dict : String) (entries : List Id) (index : Nat) :
    Except DecodeError (Option Id) :=
  if index = 0 then .ok none
  else
    let idx := index - 1
    if h : idx < entries.length then .ok (some (entries.get ⟨idx, h⟩))
    else .error (.indexOutOfBounds dict index (entries.length + 1))

/-- Decodes a Bool value (src codec/value.rs decode_bool). -/
def decode_bool (input : Bytes) : Except DecodeError (Value × Bytes) := do
  let (byte, rest) ← read_byte ("bool") input
  match byte with
  | 0 => .ok (.bool false, rest)
  | 1 => .ok (.bool true, rest)
  | _ => .error (.invalidBool byte)

/-- Decodes an Int64 value with unit (src codec/value.rs decode_int64). -/
def decode_int64 (dicts : WireDictionaries) (input : Bytes) :
    Except DecodeError (Value × Bytes) := do
  let (value, rest) ← read_signed_varint ("int64") input
  let (unitIndex, rest') ← read_varint ("int64.unit") rest
  let unit ← resolveOptIndex ("units") dicts.units unitIndex
  return (.int64 value unit, rest')

/-- Decodes a Float64 value with unit (src codec/value.rs decode_float64).
    The source performs no NaN test here. -/
def decode_float64 (dicts : WireDictionaries) (input : Bytes) :
    Except DecodeError (Value × Bytes) := do
  let (bits, rest) ← read_f64 ("float64") input
  let (unitIndex, rest') ← read_varint ("float64.unit") rest
  let unit ← resolveOptIndex ("units") dicts.units unitIndex
  return (.float64 bits unit, rest')

/-- Decodes a Decimal value (src codec/value.rs decode_decimal): exponent
    as zigzag varint cast to i32, a mantissa-type byte, the minimal-length
    check for the big form, the normalization checks, then the unit. -/
def decode_decimal (dicts : WireDictionaries) (input : Bytes) :
    Except DecodeError (Value × Bytes) := do
  let (e, rest) ← read_signed_varint ("decimal.exponent") input
  let exponent := i32Wrap e
  let (mantissaType, rest1) ← read_byte ("decimal.mantissa_type") rest
  let (mantissa, rest2) ←
    match mantissaType with
    | 0 => do
      let (v, r) ← read_signed_varint ("decimal.mantissa") rest1
      pure (DecimalMantissa.i64 v, r)
    | 1 => do
      let (len, r) ← read_varint ("decimal.mantissa_len") rest1
      let (bs, r') ← read_bytes len ("decimal.mantissa_bytes") r
      match bs with
      | first :: second :: _ =>
        if (first = 0 ∧ second < 128) ∨ (first = 255 ∧ 128 ≤ second) then
          Except.error DecodeError.decimalMantissaNotMinimal
        else pure (DecimalMantissa.big bs, r')
      | _ => pure (DecimalMantissa.big bs, r')
    | _ =>
      Except.error (DecodeError.malformedEncoding ("invalid decimal mantissa type"))
  match mantissa with
  | .i64 v =>
    if v = 0 then
      if exponent ≠ 0 then Except.error DecodeError.decimalNotNormalized
      else pure ()
    else if v % 10 = 0 then Except.error DecodeError.decimalNotNormalized
    else pure ()
  | .big bs =>
    if is_big_mantissa_zero bs then
      if exponent ≠ 0 then Except.error DecodeError.decimalNotNormalized
      else pure ()
    else if is_big_mantissa_divisible_by_10 bs then
      Except.error DecodeError.decimalNotNormalized
    else pure ()
  let (unitIndex, rest3) ← read_varint ("decimal.unit") rest2
  let unit ← resolveOptIndex ("units") dicts.units unitIndex
  return (.decimal exponent mantissa unit, rest3)

/-- Decodes a Text value with language (src codec/value.rs decode_text). -/
def decode_text (dicts : WireDictionaries) (input : Bytes) :
    Except DecodeError (Value × Bytes) := do
  let (value, rest) ← read_str MAX_STRING_LEN ("text") input
  let (langIndex, rest') ← read_varint ("text.language") rest
  let language ← resolveOptIndex ("languages") dicts.languages langIndex
  return (.text value language, rest')

/-- Decodes a Bytes value (src codec/value.rs decode_bytes). -/
def decode_bytes (input : Bytes) : Except DecodeError (Value × Bytes) := do
  let (len, rest) ← read_varint ("bytes.len") input
  if len > MAX_BYTES_LEN then
    .error (.lengthExceedsLimit ("bytes") len MAX_BYTES_LEN)
  else do
    let (bs, rest') ← read_bytes len ("bytes") rest
    return (.bytes bs, rest')

/-- Decodes a Date value (src codec/value.rs decode_date). -/
def decode_date (input : Bytes) : Except DecodeError (Value × Bytes) := do
  let (value, rest) ← read_str MAX_STRING_LEN ("date") input
  let _ ← validate_iso8601_date value
  return (.date value, rest)

/-- Decodes a Schedule value (src codec/value.rs decode_schedule); only
    basic string reading, no iCalendar validation. -/
def decode_schedule (input : Bytes) : Except DecodeError (Value × Bytes) := do
  let (value, rest) ← read_str MAX_STRING_LEN ("schedule") input
  return (.schedule value, rest)

/-- Decodes a Point value (src codec/value.rs decode_point): ordinate
    count, then longitude, latitude and optional altitude in wire order,
    then bounds and NaN checks. -/
def decode_point (input : Bytes) : Except DecodeError (Value × Bytes) := do
  let (ordinateCount, rest) ← read_byte ("point.ordinate_count") input
  if ordinateCount ≠ 2 ∧ ordinateCount ≠ 3 then
    .error (.malformedEncoding ("POINT ordinate_count must be 2 or 3"))
  else do
    let (lon, rest1) ← read_f64 ("point.lon") rest
    let (lat, rest2) ← read_f64 ("point.lat") rest1
    let (alt, rest3) ←
      if ordinateCount = 3 then do
        let (a, r) ← read_f64 ("point.alt") rest2
        pure (some a, r)
      else pure (none, rest2)
    if !(f64le F64_NEG_180 lon && f64le lon F64_180) then
      Except.error (DecodeError.longitudeOutOfRange lon)
    else if !(f64le F64_NEG_90 lat && f64le lat F64_90) then
      Except.error (DecodeError.latitudeOutOfRange lat)
    else if f64IsNan lon || f64IsNan lat then
      Except.error DecodeError.floatIsNan
    else if (alt.map f64IsNan).getD false then
      Except.error DecodeError.floatIsNan
    else
      return (.point lon lat alt, rest3)

/-- Decodes an Embedding value (src codec/value.rs decode_embedding),
    including the float32 NaN scan and the binary unused-bits check. -/
def decode_embedding (input : Bytes) : Except DecodeError (Value × Bytes) := do
  let (subTypeByte, rest) ← read_byte ("embedding.sub_type") input
  match EmbeddingSubType.from_u8 subTypeByte with
  | none => .error (.invalidEmbeddingSubType subTypeByte)
  | some subType => do
    let (dims, rest1) ← read_varint ("embedding.dims") rest
    if dims > MAX_EMBEDDING_DIMS then
      .error (.lengthExceedsLimit ("embedding.dims") dims MAX_EMBEDDING_DIMS)
    else
      let expectedBytes := subType.bytes_for_dims dims
      if expectedBytes > MAX_EMBEDDING_BYTES then
        .error (.lengthExceedsLimit ("embedding.data") expectedBytes MAX_EMBEDDING_BYTES)
      else do
        let (data, rest2) ← read_bytes expectedBytes ("embedding.data") rest1
        if subType = .float32 ∧ (chunks4 data).any chunkIsNanF32 then
          Except.error DecodeError.floatIsNan
        else if subType = .binary ∧ dims % 8 ≠ 0 ∧
            (data.getLastD 0) &&& (256 - 2 ^ (dims % 8)) ≠ 0 then
          Except.error (DecodeError.malformedEncoding
            ("binary embedding has non-zero unused bits"))
        else
          return (.embedding subType dims data, rest2)

/-- Decodes a Value for a given data type (src codec/value.rs
    decode_value): the dispatch is exhaustive over the codec DataType and
    has no Timestamp or Ref arm. -/
def decode_value (dataType : DataType) (dicts : WireDictionaries)
    (input : Bytes) : Except DecodeError (Value × Bytes) :=
  match dataType with
  | .bool => decode_bool input
  | .int64 => decode_int64 dicts input
  | .float64 => decode_float64 dicts input
  | .decimal => decode_decimal dicts input
  | .text => decode_text dicts input
  | .bytes => decode_bytes input
  | .date => decode_date input
  | .schedule => decode_schedule input
  | .point => decode_point input
  | .embedding => decode_embedding input

/-- Decodes a PropertyValue (src codec/value.rs decode_property_value):
    zero-based property index, then the value by the dictionary-declared
    data type. -/
def decode_property_value (dicts : WireDictionaries) (input : Bytes) :
    Except DecodeError ((Id × Value) × Bytes) := do
  let (propIndex, rest) ← read_varint ("property") input
  if h : propIndex < dicts.properties.length then
    let (property, dataType) := dicts.properties.get ⟨propIndex, h⟩
    let (value, rest') ← decode_value dataType dicts rest
    return ((property, value), rest')
  else
    .error (.indexOutOfBounds ("properties") propIndex dicts.properties.length)

/-- Dictionary builder of the codec variant (the model file is not under
    src/): insertion-ordered interning lists; the sidecar index maps of the
    source are a lookup optimization with no observable effect. -/
structure DictionaryBuilder where
  properties : List (Id × DataType) := []
  relationTypes : List Id := []
  languages : List Id := []
  objects : List Id := []
  units : List Id := []
deriving DecidableEq, Repr

/-- Interning into an insertion-ordered list: index of an existing entry,
    or append at the end. -/
def internIndex (entries : List Id) (id : Id) : Nat × List Id :=
  match entries.findIdx? (fun x => x = id) with
  | some i => (i, entries)
  | none => (entries.length, entries ++ [id])

/-- Adds an optional unit, returning the one-based wire index, zero for
    none (codec variant add_unit). -/
def DictionaryBuilder.add_unit (b : DictionaryBuilder) (unit : Option Id) :
    Nat × DictionaryBuilder :=
  match unit with
  | none => (0, b)
  | some id =>
    let (i, entries) := internIndex b.units id
    (i + 1, { b with units := entries })

/-- Adds an optional language, returning the one-based wire index, zero for
    none (codec variant add_language). -/
def DictionaryBuilder.add_language (b : DictionaryBuilder)
    (language : Option Id) : Nat × DictionaryBuilder :=
  match language with
  | none => (0, b)
  | some id =>
    let (i, entries) := internIndex b.languages id
    (i + 1, { b with languages := entries })

/-- Adds an object identifier, returning its zero-based index (codec
    variant add_object). -/
def DictionaryBuilder.add_object (b : DictionaryBuilder) (id : Id) :
    Nat × DictionaryBuilder :=
  let (i, entries) := internIndex b.objects id
  (i, { b with objects := entries })

/-- Normalization validation of src codec/value.rs encode_decimal: a zero
    mantissa forces a zero exponent; a non-zero mantissa must not be
    divisible by 10. -/
def check_decimal_normalized (exponent : Int) (mantissa : DecimalMantissa) :
    Except EncodeError Unit :=
  match mantissa with
  | .i64 v =>
    if v = 0 then
      (if exponent ≠ 0 then .error .decimalNotNormalized else .ok ())
    else if v % 10 = 0 then .error .decimalNotNormalized
    else .ok ()
  | .big bs =>
    if is_big_mantissa_zero bs then
      (if exponent ≠ 0 then .error .decimalNotNormalized else .ok ())
    else if is_big_mantissa_divisible_by_10 bs then .error .decimalNotNormalized
    else .ok ()

/-- Encodes a Decimal payload (src codec/value.rs encode_decimal):
    normalization checks, then zigzag exponent, mantissa-type byte and
    mantissa. -/
def encode_decimal (exponent : Int) (mantissa : DecimalMantissa) :
    Except EncodeError Bytes :=
  match check_decimal_normalized exponent mantissa with
  | .error e => .error e
  | .ok _ =>
    match mantissa with
    | .i64 v => .ok (write_signed_varint exponent ++ [0] ++ write_signed_varint v)
    | .big bs =>
      .ok (write_signed_varint exponent ++ [1] ++ write_varint bs.length ++ bs)

/-- Encodes a Value (src codec/value.rs encode_value), returning the
    produced bytes and the updated dictionary builder. -/
def encode_value (v : Value) (b : DictionaryBuilder) :
    Except EncodeError (Bytes × DictionaryBuilder) :=
  match v with
  | .bool v => .ok ([if v then 1 else 0], b)
  | .int64 value unit =>
    let (unitIndex, b') := b.add_unit unit
    .ok (write_signed_varint value ++ write_varint unitIndex, b')
  | .float64 bits unit =>
    if f64IsNan bits then .error .floatIsNan
    else
      let (unitIndex, b') := b.add_unit unit
      .ok (natToLEBytes 8 bits ++ write_varint unitIndex, b')
  | .decimal exponent mantissa unit => do
    let payload ← encode_decimal exponent mantissa
    let (unitIndex, b') := b.add_unit unit
    return (payload ++ write_varint unitIndex, b')
  | .text value language =>
    let (langIndex, b') := b.add_language language
    .ok (write_bytes_prefixed value ++ write_varint langIndex, b')
  | .bytes data => .ok (write_bytes_prefixed data, b)
  | .date s => do
    let _ ← validate_iso8601_date_for_encode s
    return (write_bytes_prefixed s, b)
  | .schedule s => .ok (write_bytes_prefixed s, b)
  | .point lon lat alt =>
    if f64lt lon F64_NEG_180 || f64lt F64_180 lon then
      .error (.longitudeOutOfRange lon)
    else if f64lt lat F64_NEG_90 || f64lt F64_90 lat then
      .error (.latitudeOutOfRange lat)
    else if f64IsNan lat || f64IsNan lon then .error .floatIsNan
    else if (alt.map f64IsNan).getD false then .error .floatIsNan
    else
      let ordinateCount : Nat := if alt.isSome then 3 else 2
      .ok (ordinateCount :: (natToLEBytes 8 lon ++ natToLEBytes 8 lat ++
        (match alt with | some a => natToLEBytes 8 a | none => [])), b)
  | .embedding subType dims data =>
    if data.length ≠ subType.bytes_for_dims dims then
      .error (.embeddingDimensionMismatch subType.toU8 dims data.length)
    else if subType = .float32 ∧ (chunks4 data).any chunkIsNanF32 then
      .error .floatIsNan
    else
      .ok (subType.toU8 :: (write_varint dims ++ data), b)

end Codec

/-- Validation errors (src error.rs, reconstructed; spec section 7). -/
inductive ValidationError where
  | typeMismatch (property : Id) (expected : DataType)
  | dataTypeInconsistent (property : Id) (schema : DataType) (declared : DataType)
deriving DecidableEq, Repr

/-- Property-type side map (HashMap of Id to DataType in src): modelled as
    an association list where insertion prepends and lookup takes the first
    hit, observably the overwrite semantics of the hash map. -/
abbrev PropertyTypes := List (Id × DataType)

/-- Lookup in the property-type map. -/
def ptGet (m : PropertyTypes) (id : Id) : Option DataType :=
  (m.find? (fun p => p.1 = id)).map (fun p => p.2)

/-- Insert (overwrite) in the property-type map. -/
def ptInsert (m : PropertyTypes) (id : Id) (dt : DataType) : PropertyTypes :=
  (id, dt) :: m

/-- Create-property operation (src model, spec section 3). -/
structure CreateProperty where
  id : Id
  data_type : DataType
deriving DecidableEq, Repr

/-- Create-entity operation (src model, spec section 3). -/
structure CreateEntity where
  id : Id
  values : List PropertyValue
deriving DecidableEq, Repr

/-- Update-entity operation with four parallel lists (src model, spec
    sections 3 and 4.5). -/
structure UpdateEntity where
  id : Id
  set_properties : List PropertyValue
  add_values : List PropertyValue
  remove_values : List PropertyValue
  unset_properties : List Id
deriving DecidableEq, Repr

/-- Delete-entity operation (src model, spec section 3). -/
structure DeleteEntity where
  id : Id
deriving DecidableEq, Repr

/-- Relation-identifier mode (src model RelationIdMode; spec section 4.5:
    explicit wire-embedded Id or derived unique mode). -/
inductive RelationIdMode where
  | explicitId (id : Id)
  | unique
deriving DecidableEq, Repr

/-- Create-relation operation (src model, spec section 3). -/
structure CreateRelation where
  id : RelationIdMode
  fromId : Id
  toId : Id
  relation_type : Id
  position : Option Bytes
  verified : Option Bool
deriving DecidableEq, Repr

/-- Update-relation operation (src model, spec section 3). -/
structure UpdateRelation where
  id : Id
  position : Option Bytes
  verified : Option Bool
deriving DecidableEq, Repr

/-- Delete-relation operation (src model, spec section 3). -/
structure DeleteRelation where
  id : Id
deriving DecidableEq, Repr

/-- Operations, the tagged union of src model (spec section 3). -/
inductive Op where
  | createProperty (op : CreateProperty)
  | createEntity (op : CreateEntity)
  | updateEntity (op : UpdateEntity)
  | deleteEntity (op : DeleteEntity)
  | createRelation (op : CreateRelation)
  | updateRelation (op : UpdateRelation)
  | deleteRelation (op : DeleteRelation)
deriving DecidableEq, Repr

/-- An edit: batched operations with header data (src model, spec
    section 3). -/
structure Edit where
  id : Id
  name : Bytes
  authors : List Id
  created_at : Int
  ops : List Op
deriving DecidableEq, Repr

/-- Wire dictionaries of the edit codec (src codec/edit.rs construction):
    four parallel insertion-ordered lists. -/
structure WireDictionaries where
  properties : List (Id × DataType) := []
  relation_types : List Id := []
  languages : List Id := []
  objects : List Id := []
deriving DecidableEq, Repr

/-- Dictionary builder (src model DictionaryBuilder, reconstructed):
    insertion-ordered lists with interning; the sidecar index maps of the
    source are a lookup optimization with no observable effect. -/
structure DictionaryBuilder where
  properties : List (Id × DataType) := []
  relation_types : List Id := []
  languages : List Id := []
  objects : List Id := []
deriving DecidableEq, Repr

/-- Adds a property keyed on its identifier, keeping the first-seen data
    type, and returns its zero-based index. -/
def DictionaryBuilder.add_property (b : DictionaryBuilder) (id : Id)
    (dt : DataType) : Nat × DictionaryBuilder :=
  match b.properties.findIdx? (fun p => p.1 = id) with
  | some i => (i, b)
  | none => (b.properties.length, { b with properties := b.properties ++ [(id, dt)] })

/-- Adds a relation type, returning its zero-based index. -/
def DictionaryBuilder.add_relation_type (b : DictionaryBuilder) (id : Id) :
    Nat × DictionaryBuilder :=
  let (i, entries) := Codec.internIndex b.relation_types id
  (i, { b with relation_types := entries })

/-- Adds an optional language, returning the one-based wire index, zero for
    none. -/
def DictionaryBuilder.add_language (b : DictionaryBuilder)
    (language : Option Id) : Nat × DictionaryBuilder :=
  match language with
  | none => (0, b)
  | some id =>
    let (i, entries) := Codec.internIndex b.languages id
    (i + 1, { b with languages := entries })

/-- Adds an object identifier, returning its zero-based index. -/
def DictionaryBuilder.add_object (b : DictionaryBuilder) (id : Id) :
    Nat × DictionaryBuilder :=
  let (i, entries) := Codec.internIndex b.objects id
  (i, { b with objects := entries })

/-- Freezes the builder into wire dictionaries. -/
def DictionaryBuilder.build (b : DictionaryBuilder) : WireDictionaries :=
  { properties := b.properties
    relation_types := b.relation_types
    languages := b.languages
    objects := b.objects }

/-- First-pass collection over the property values of an op (src
    codec/edit.rs collect_property_values): intern the property under the
    known or inferred data type, record it in the side map, and intern text
    languages and ref targets. -/
def collect_property_values : List PropertyValue → DictionaryBuilder →
    PropertyTypes → DictionaryBuilder × PropertyTypes
  | [], b, pt => (b, pt)
  | pv :: rest, b, pt =>
    let dt := (ptGet pt pv.property).getD pv.value.dataType
    let b1 := (b.add_property pv.property dt).2
    let pt1 := ptInsert pt pv.property dt
    let b2 := match pv.value with
      | .text _ language => (b1.add_language language).2
      | _ => b1
    let b3 := match pv.value with
      | .ref id => (b2.add_object id).2
      | _ => b2
    collect_property_values rest b3 pt1

/-- First pass over one op (src codec/edit.rs collect_edit_ids match): note
    that the CreateProperty arm records the declared type in the side map
    but does NOT intern the property into the builder, and the CreateEntity
    arm does not intern the entity identifier. -/
def collect_op (b : DictionaryBuilder) (pt : PropertyTypes) :
    Op → DictionaryBuilder × PropertyTypes
  | .createEntity ce => collect_property_values ce.values b pt
  | .updateEntity ue =>
    let b0 := (b.add_object ue.id).2
    let (b1, pt1) := collect_property_values ue.set_properties b0 pt
    let (b2, pt2) := collect_property_values ue.add_values b1 pt1
    let (b3, pt3) := collect_property_values ue.remove_values b2 pt2
    let b4 := ue.unset_properties.foldl
      (fun acc pid => (acc.add_property pid .bool).2) b3
    (b4, pt3)
  | .deleteEntity de => ((b.add_object de.id).2, pt)
  | .createRelation cr =>
    let b1 := (b.add_relation_type cr.relation_type).2
    let b2 := (b1.add_object cr.fromId).2
    let b3 := (b2.add_object cr.toId).2
    (b3, pt)
  | .updateRelation ur => ((b.add_object ur.id).2, pt)
  | .deleteRelation dr => ((b.add_object dr.id).2, pt)
  | .createProperty cp => (b, ptInsert pt cp.id cp.data_type)

/-- First pass over an edit (src codec/edit.rs collect_edit_ids). -/
def collect_edit_ids (edit : Edit) : DictionaryBuilder × PropertyTypes :=
  edit.ops.foldl (fun acc op => collect_op acc.1 acc.2 op) ({}, [])

/-- Modelled from the spec: value encoder of the Timestamp/Ref variant
    (spec section 4.4); the value codec file of this variant is not under
    src/.  Returns the produced bytes and the updated builder. -/
def encode_value (v : Value) (b : DictionaryBuilder) :
    Except EncodeError (Bytes × DictionaryBuilder) :=
  match v with
  | .bool v => .ok ([if v then 1 else 0], b)
  | .int64 value => .ok (write_signed_varint value, b)
  | .float64 bits =>
    if f64IsNan bits then .error .floatIsNan
    else .ok (natToLEBytes 8 bits, b)
  | .decimal exponent mantissa => do
    let payload ← Codec.encode_decimal exponent mantissa
    return (payload, b)
  | .text value language =>
    let (langIndex, b') := b.add_language language
    .ok (write_bytes_prefixed value ++ write_varint langIndex, b')
  | .bytes data => .ok (write_bytes_prefixed data, b)
  | .timestamp micros => .ok (write_signed_varint micros, b)
  | .date s => do
    let _ ← validate_iso8601_date_for_encode s
    return (write_bytes_prefixed s, b)
  | .point lat lon =>
    if f64lt lat F64_NEG_90 || f64lt F64_90 lat then
      .error (.latitudeOutOfRange lat)
    else if f64lt lon F64_NEG_180 || f64lt F64_180 lon then
      .error (.longitudeOutOfRange lon)
    else if f64IsNan lat || f64IsNan lon then .error .floatIsNan
    else .ok (natToLEBytes 8 lat ++ natToLEBytes 8 lon, b)
  | .embedding subType dims data =>
    if data.length ≠ subType.bytes_for_dims dims then
      .error (.embeddingDimensionMismatch subType.toU8 dims data.length)
    else if subType = .float32 ∧ (chunks4 data).any chunkIsNanF32 then
      .error .floatIsNan
    else if subType = .binary ∧ dims % 8 ≠ 0 ∧
        (data.getLastD 0) &&& (256 - 2 ^ (dims % 8)) ≠ 0 then
      .error (.embeddingDimensionMismatch subType.toU8 dims data.length)
    else .ok (subType.toU8 :: (write_varint dims ++ data), b)
  | .ref id =>
    let (i, b') := b.add_object id
    .ok (write_varint i, b')

/-- Modelled from the spec: decimal decoder of the Timestamp/Ref variant
    (spec section 4.4), mirroring the checks of the codec variant without
    the unit. -/
def decode_decimal (input : Bytes) :
    Except DecodeError ((Int × DecimalMantissa) × Bytes) := do
  let (e, rest) ← read_signed_varint ("decimal.exponent") input
  let exponent := i32Wrap e
  let (mantissaType, rest1) ← read_byte ("decimal.mantissa_type") rest
  let (mantissa, rest2) ←
    match mantissaType with
    | 0 => do
      let (v, r) ← read_signed_varint ("decimal.mantissa") rest1
      pure (DecimalMantissa.i64 v, r)
    | 1 => do
      let (len, r) ← read_varint ("decimal.mantissa_len") rest1
      let (bs, r') ← read_bytes len ("decimal.mantissa_bytes") r
      match bs with
      | first :: second :: _ =>
        if (first = 0 ∧ second < 128) ∨ (first = 255 ∧ 128 ≤ second) then
          Except.error DecodeError.decimalMantissaNotMinimal
        else pure (DecimalMantissa.big bs, r')
      | _ => pure (DecimalMantissa.big bs, r')
    | _ =>
      Except.error (DecodeError.malformedEncoding ("invalid decimal mantissa type"))
  match mantissa with
  | .i64 v =>
    if v = 0 then
      if exponent ≠ 0 then Except.error DecodeError.decimalNotNormalized
      else pure ()
    else if v % 10 = 0 then Except.error DecodeError.decimalNotNormalized
    else pure ()
  | .big bs =>
    if is_big_mantissa_zero bs then
      if exponent ≠ 0 then Except.error DecodeError.decimalNotNormalized
      else pure ()
    else if is_big_mantissa_divisible_by_10 bs then
      Except.error DecodeError.decimalNotNormalized
    else pure ()
  return ((exponent, mantissa), rest2)

/-- Modelled from the spec: value decoder of the Timestamp/Ref variant by
    declared data type (spec section 4.4); the value codec file of this
    variant is not under src/. -/
def decode_value (dataType : DataType) (dicts : WireDictionaries)
    (input : Bytes) : Except DecodeError (Value × Bytes) :=
  match dataType with
  | .bool => do
    let (byte, rest) ← read_byte ("bool") input
    match byte with
    | 0 => .ok (.bool false, rest)
    | 1 => .ok (.bool true, rest)
    | _ => .error (.invalidBool byte)
  | .int64 => do
    let (v, rest) ← read_signed_varint ("int64") input
    return (.int64 v, rest)
  | .float64 => do
    let (bits, rest) ← read_f64 ("float64") input
    if f64IsNan bits then .error .floatIsNan
    else return (.float64 bits, rest)
  | .decimal => do
    let ((exponent, mantissa), rest) ← decode_decimal input
    return (.decimal exponent mantissa, rest)
  | .text => do
    let (value, rest) ← read_str MAX_STRING_LEN ("text") input
    let (langIndex, rest') ← read_varint ("text.language") rest
    let language ← Codec.resolveOptIndex ("languages") dicts.languages langIndex
    return (.text value language, rest')
  | .bytes => do
    let (len, rest) ← read_varint ("bytes.len") input
    if len > MAX_BYTES_LEN then
      .error (.lengthExceedsLimit ("bytes") len MAX_BYTES_LEN)
    else do
      let (bs, rest') ← read_bytes len ("bytes") rest
      return (.bytes bs, rest')
  | .timestamp => do
    let (v, rest) ← read_signed_varint ("timestamp") input
    return (.timestamp v, rest)
  | .date => do
    let (value, rest) ← read_str MAX_STRING_LEN ("date") input
    let _ ← validate_iso8601_date value
    return (.date value, rest)
  | .point => do
    let (lat, rest1) ← read_f64 ("point.lat") input
    let (lon, rest2) ← read_f64 ("point.lon") rest1
    if !(f64le F64_NEG_90 lat && f64le lat F64_90) then
      .error (.latitudeOutOfRange lat)
    else if !(f64le F64_NEG_180 lon && f64le lon F64_180) then
      .error (.longitudeOutOfRange lon)
    else if f64IsNan lat || f64IsNan lon then .error .floatIsNan
    else return (.point lat lon, rest2)
  | .embedding => do
    let (subTypeByte, rest) ← read_byte ("embedding.sub_type") input
    match EmbeddingSubType.from_u8 subTypeByte with
    | none => .error (.invalidEmbeddingSubType subTypeByte)
    | some subType => do
      let (dims, rest1) ← read_varint ("embedding.dims") rest
      if dims > MAX_EMBEDDING_DIMS then
        .error (.lengthExceedsLimit ("embedding.dims") dims MAX_EMBEDDING_DIMS)
      else
        let expectedBytes := subType.bytes_for_dims dims
        if expectedBytes > MAX_EMBEDDING_BYTES then
          .error (.lengthExceedsLimit ("embedding.data") expectedBytes
            MAX_EMBEDDING_BYTES)
        else do
          let (data, rest2) ← read_bytes expectedBytes ("embedding.data") rest1
          if subType = .float32 ∧ (chunks4 data).any chunkIsNanF32 then
            Except.error DecodeError.floatIsNan
          else if subType = .binary ∧ dims % 8 ≠ 0 ∧
              (data.getLastD 0) &&& (256 - 2 ^ (dims % 8)) ≠ 0 then
            Except.error (DecodeError.malformedEncoding
              ("binary embedding has non-zero unused bits"))
          else
            return (.embedding subType dims data, rest2)
  | .ref => do
    let (i, rest) ← read_varint ("ref") input
    if h : i < dicts.objects.length then
      return (.ref (dicts.objects.get ⟨i, h⟩), rest)
    else .error (.indexOutOfBounds ("objects") i dicts.objects.length)

/-- Modelled from the spec: property-value encoder (spec section 4.5,
    PropertyValue is property index then value payload); the data type is
    the side-map entry or the type of the value itself, as in src
    codec/value.rs encode_property_value and codec/edit.rs. -/
def encode_property_value (pv : PropertyValue) (b : DictionaryBuilder)
    (pt : PropertyTypes) : Except EncodeError (Bytes × DictionaryBuilder) := do
  let dt := (ptGet pt pv.property).getD pv.value.dataType
  let (i, b1) := b.add_property pv.property dt
  let (payload, b2) ← encode_value pv.value b1
  return (write_varint i ++ payload, b2)

/-- Encodes a list of property values, threading the builder. -/
def encode_property_values (pvs : List PropertyValue) (b : DictionaryBuilder)
    (pt : PropertyTypes) : Except EncodeError (Bytes × DictionaryBuilder) :=
  match pvs with
  | [] => .ok ([], b)
  | pv :: rest => do
    let (bytes1, b1) ← encode_property_value pv b pt
    let (bytes2, b2) ← encode_property_values rest b1 pt
    return (bytes1 ++ bytes2, b2)

/-- Modelled from the spec: encodes an optional position string with
    validation (spec section 4.5), a presence byte then the validated
    length-prefixed string. -/
def encode_position_opt (position : Option Bytes) :
    Except EncodeError Bytes :=
  match position with
  | none => .ok [0]
  | some pos => do
    let _ ← validate_position pos
    return 1 :: write_bytes_prefixed pos

/-- Modelled from the spec: encodes an optional verified flag, a presence
    byte then the boolean byte. -/
def encode_verified_opt (verified : Option Bool) : Bytes :=
  match verified with
  | none => [0]
  | some v => [1, if v then 1 else 0]

/-- Modelled from the spec: op encoder (spec section 4.5) — a one-byte tag
    in declaration order, bodies using dictionary indices for referenced
    properties, relation types, languages and objects; codec/op.rs is not
    under src/.  Unset properties are interned under the Bool placeholder,
    as the first pass does in src codec/edit.rs. -/
def encode_op (op : Op) (b : DictionaryBuilder) (pt : PropertyTypes) :
    Except EncodeError (Bytes × DictionaryBuilder) :=
  match op with
  | .createProperty cp =>
    let (i, b') := b.add_property cp.id cp.data_type
    .ok (1 :: write_varint i, b')
  | .createEntity ce => do
    let (valueBytes, b') ← encode_property_values ce.values b pt
    return (2 :: (ce.id ++ write_varint ce.values.length ++ valueBytes), b')
  | .updateEntity ue => do
    let (objIndex, b0) := b.add_object ue.id
    let (setBytes, b1) ← encode_property_values ue.set_properties b0 pt
    let (addBytes, b2) ← encode_property_values ue.add_values b1 pt
    let (removeBytes, b3) ← encode_property_values ue.remove_values b2 pt
    let (unsetBytes, b4) := ue.unset_properties.foldl
      (fun acc pid =>
        let (i, b') := acc.2.add_property pid .bool
        (acc.1 ++ write_varint i, b'))
      (([] : Bytes), b3)
    return (3 :: (write_varint objIndex ++
      write_varint ue.set_properties.length ++ setBytes ++
      write_varint ue.add_values.length ++ addBytes ++
      write_varint ue.remove_values.length ++ removeBytes ++
      write_varint ue.unset_properties.length ++ unsetBytes), b4)
  | .deleteEntity de =>
    let (i, b') := b.add_object de.id
    .ok (4 :: write_varint i, b')
  | .createRelation cr => do
    let modeBytes : Bytes := match cr.id with
      | .explicitId id => 0 :: id
      | .unique => [1]
    let (fromIndex, b1) := b.add_object cr.fromId
    let (toIndex, b2) := b1.add_object cr.toId
    let (rtIndex, b3) := b2.add_relation_type cr.relation_type
    let posBytes ← encode_position_opt cr.position
    return (5 :: (modeBytes ++ write_varint fromIndex ++ write_varint toIndex ++
      write_varint rtIndex ++ posBytes ++ encode_verified_opt cr.verified), b3)
  | .updateRelation ur => do
    let (i, b') := b.add_object ur.id
    let posBytes ← encode_position_opt ur.position
    return (6 :: (write_varint i ++ posBytes ++
      encode_verified_opt ur.verified), b')
  | .deleteRelation dr =>
    let (i, b') := b.add_object dr.id
    .ok (7 :: write_varint i, b')

/-- Encodes a list of ops, threading the builder. -/
def encode_ops (ops : List Op) (b : DictionaryBuilder) (pt : PropertyTypes) :
    Except EncodeError (Bytes × DictionaryBuilder) :=
  match ops with
  | [] => .ok ([], b)
  | op :: rest => do
    let (bytes1, b1) ← encode_op op b pt
    let (bytes2, b2) ← encode_ops rest b1 pt
    return (bytes1 ++ bytes2, b2)

/-- Pre-populates a fresh builder with the first-pass dictionaries in the
    same order, so pass-two indices are stable (src codec/edit.rs
    encode_edit). -/
def prepopulate (dicts : WireDictionaries) : DictionaryBuilder :=
  let b0 := dicts.properties.foldl
    (fun acc p => (acc.add_property p.1 p.2).2) ({} : DictionaryBuilder)
  let b1 := dicts.relation_types.foldl
    (fun acc id => (acc.add_relation_type id).2) b0
  let b2 := dicts.languages.foldl
    (fun acc id => (acc.add_language (some id)).2) b1
  dicts.objects.foldl (fun acc id => (acc.add_object id).2) b2

/-- Encodes an Edit to the uncompressed binary format (src codec/edit.rs
    encode_edit): first pass collects dictionaries, then magic, version,
    header, dictionaries and ops are emitted with a re-created builder. -/
def encode_edit (edit : Edit) : Except EncodeError Bytes := do
  let (builder0, property_types) := collect_edit_ids edit
  let dicts := builder0.build
  let headerBytes :=
    MAGIC_UNCOMPRESSED ++ [FORMAT_VERSION] ++ edit.id ++
    write_bytes_prefixed edit.name ++ write_id_vec edit.authors ++
    write_signed_varint edit.created_at
  let dictBytes :=
    write_varint dicts.properties.length ++
    dicts.properties.flatMap (fun p => p.1 ++ [p.2.toU8]) ++
    write_id_vec dicts.relation_types ++
    write_id_vec dicts.languages ++
    write_id_vec dicts.objects
  let b1 := prepopulate dicts
  let (opsBytes, _) ← encode_ops edit.ops b1 property_types
  return headerBytes ++ dictBytes ++ write_varint edit.ops.length ++ opsBytes

/-- Modelled from the spec: property-value decoder of the Timestamp/Ref
    variant (spec section 4.5): property index resolved against the
    dictionary, then the value by the declared data type. -/
def decode_property_value (dicts : WireDictionaries) (input : Bytes) :
    Except DecodeError (PropertyValue × Bytes) := do
  let (i, rest) ← read_varint ("property") input
  if h : i < dicts.properties.length then
    let (property, dataType) := dicts.properties.get ⟨i, h⟩
    let (value, rest') ← decode_value dataType dicts rest
    return (⟨property, value⟩, rest')
  else .error (.indexOutOfBounds ("properties") i dicts.properties.length)

/-- Decodes a counted list of property values. -/
def decode_property_values : Nat → WireDictionaries → Bytes →
    Except DecodeError (List PropertyValue × Bytes)
  | 0, _, input => .ok ([], input)
  | n + 1, dicts, input => do
    let (pv, rest) ← decode_property_value dicts input
    let (pvs, rest') ← decode_property_values n dicts rest
    return (pv :: pvs, rest')

/-- Resolves a varint property index to its identifier (used for unset
    properties). -/
def decode_property_index (dicts : WireDictionaries) (input : Bytes) :
    Except DecodeError (Id × Bytes) := do
  let (i, rest) ← read_varint ("property") input
  if h : i < dicts.properties.length then
    return ((dicts.properties.get ⟨i, h⟩).1, rest)
  else .error (.indexOutOfBounds ("properties") i dicts.properties.length)

/-- Decodes a counted list of property indices. -/
def decode_property_indices : Nat → WireDictionaries → Bytes →
    Except DecodeError (List Id × Bytes)
  | 0, _, input => .ok ([], input)
  | n + 1, dicts, input => do
    let (id, rest) ← decode_property_index dicts input
    let (ids, rest') ← decode_property_indices n dicts rest
    return (id :: ids, rest')

/-- Resolves a varint object index to its identifier. -/
def decode_object_index (dicts : WireDictionaries) (input : Bytes) :
    Except DecodeError (Id × Bytes) := do
  let (i, rest) ← read_varint ("object") input
  if h : i < dicts.objects.length then
    return (dicts.objects.get ⟨i, h⟩, rest)
  else .error (.indexOutOfBounds ("objects") i dicts.objects.length)

/-- Resolves a varint relation-type index to its identifier. -/
def decode_relation_type_index (dicts : WireDictionaries) (input : Bytes) :
    Except DecodeError (Id × Bytes) := do
  let (i, rest) ← read_varint ("relation_type") input
  if h : i < dicts.relation_types.length then
    return (dicts.relation_types.get ⟨i, h⟩, rest)
  else .error (.indexOutOfBounds ("relation_types") i dicts.relation_types.length)

/-- Modelled from the spec: decodes an optional position string, a
    presence byte then the re-validated string (spec section 4.5). -/
def decode_position_opt (input : Bytes) :
    Except DecodeError (Option Bytes × Bytes) := do
  let (presence, rest) ← read_byte ("position.presence") input
  match presence with
  | 0 => .ok (none, rest)
  | 1 => do
    let (pos, rest') ← decode_position rest
    return (some pos, rest')
  | _ => .error (.malformedEncoding ("invalid option tag"))

/-- Modelled from the spec: decodes an optional verified flag. -/
def decode_verified_opt (input : Bytes) :
    Except DecodeError (Option Bool × Bytes) := do
  let (presence, rest) ← read_byte ("verified.presence") input
  match presence with
  | 0 => .ok (none, rest)
  | 1 => do
    let (b, rest') ← read_byte ("verified") rest
    match b with
    | 0 => pure (some false, rest')
    | 1 => pure (some true, rest')
    | _ => Except.error (DecodeError.invalidBool b)
  | _ => .error (.malformedEncoding ("invalid option tag"))

/-- Modelled from the spec: op decoder (spec section 4.5) — reconstructs
    the op from its one-byte tag, resolving indices against the wire
    dictionaries; out-of-range indices and unknown tags fail; codec/op.rs
    is not under src/. -/
def decode_op (dicts : WireDictionaries) (input : Bytes) :
    Except DecodeError (Op × Bytes) := do
  let (tag, rest) ← read_byte ("op.tag") input
  match tag with
  | 1 => do
    let (i, rest1) ← read_varint ("property") rest
    if h : i < dicts.properties.length then
      let (id, dataType) := dicts.properties.get ⟨i, h⟩
      return (.createProperty ⟨id, dataType⟩, rest1)
    else .error (.indexOutOfBounds ("properties") i dicts.properties.length)
  | 2 => do
    let (id, rest1) ← read_id ("entity_id") rest
    let (count, rest2) ← read_varint ("values.len") rest1
    if count > MAX_VALUES_PER_ENTITY then
      .error (.lengthExceedsLimit ("values") count MAX_VALUES_PER_ENTITY)
    else do
      let (values, rest3) ← decode_property_values count dicts rest2
      return (.createEntity ⟨id, values⟩, rest3)
  | 3 => do
    let (id, rest1) ← decode_object_index dicts rest
    let (setCount, r1) ← read_varint ("set_properties.len") rest1
    if setCount > MAX_VALUES_PER_ENTITY then
      .error (.lengthExceedsLimit ("set_properties") setCount MAX_VALUES_PER_ENTITY)
    else do
      let (setValues, r2) ← decode_property_values setCount dicts r1
      let (addCount, r3) ← read_varint ("add_values.len") r2
      if addCount > MAX_VALUES_PER_ENTITY then
        .error (.lengthExceedsLimit ("add_values") addCount MAX_VALUES_PER_ENTITY)
      else do
        let (addValues, r4) ← decode_property_values addCount dicts r3
        let (removeCount, r5) ← read_varint ("remove_values.len") r4
        if removeCount > MAX_VALUES_PER_ENTITY then
          .error (.lengthExceedsLimit ("remove_values") removeCount
            MAX_VALUES_PER_ENTITY)
        else do
          let (removeValues, r6) ← decode_property_values removeCount dicts r5
          let (unsetCount, r7) ← read_varint ("unset_properties.len") r6
          if unsetCount > MAX_VALUES_PER_ENTITY then
            .error (.lengthExceedsLimit ("unset_properties") unsetCount
              MAX_VALUES_PER_ENTITY)
          else do
            let (unsetIds, r8) ← decode_property_indices unsetCount dicts r7
            return (.updateEntity ⟨id, setValues, addValues, removeValues, unsetIds⟩, r8)
  | 4 => do
    let (id, rest1) ← decode_object_index dicts rest
    return (.deleteEntity ⟨id⟩, rest1)
  | 5 => do
    let (modeByte, rest1) ← read_byte ("relation_id.mode") rest
    let (mode, rest2) ←
      match modeByte with
      | 0 => do
        let (id, r) ← read_id ("relation_id") rest1
        pure (RelationIdMode.explicitId id, r)
      | 1 => pure (RelationIdMode.unique, rest1)
      | _ => Except.error (DecodeError.malformedEncoding ("invalid relation id mode"))
    let (fromId, rest3) ← decode_object_index dicts rest2
    let (toId, rest4) ← decode_object_index dicts rest3
    let (relType, rest5) ← decode_relation_type_index dicts rest4
    let (position, rest6) ← decode_position_opt rest5
    let (verified, rest7) ← decode_verified_opt rest6
    return (.createRelation ⟨mode, fromId, toId, relType, position, verified⟩, rest7)
  | 6 => do
    let (id, rest1) ← decode_object_index dicts rest
    let (position, rest2) ← decode_position_opt rest1
    let (verified, rest3) ← decode_verified_opt rest2
    return (.updateRelation ⟨id, position, verified⟩, rest3)
  | 7 => do
    let (id, rest1) ← decode_object_index dicts rest
    return (.deleteRelation ⟨id⟩, rest1)
  | _ => .error (.malformedEncoding ("unknown op tag"))

/-- Decodes a counted list of ops. -/
def decode_ops : Nat → WireDictionaries → Bytes →
    Except DecodeError (List Op × Bytes)
  | 0, _, input => .ok ([], input)
  | n + 1, dicts, input => do
    let (op, rest) ← decode_op dicts input
    let (ops, rest') ← decode_ops n dicts rest
    return (op :: ops, rest')

/-- Decodes the properties dictionary: identifier then data-type byte per
    entry (src codec/edit.rs decode_edit). -/
def decode_properties : Nat → Bytes →
    Except DecodeError (List (Id × DataType) × Bytes)
  | 0, input => .ok ([], input)
  | n + 1, input => do
    let (id, rest) ← read_id ("property_id") input
    let (dtByte, rest1) ← read_byte ("data_type") rest
    match DataType.from_u8 dtByte with
    | none => .error (.invalidDataType dtByte)
    | some dataType => do
      let (props, rest2) ← decode_properties n rest1
      return ((id, dataType) :: props, rest2)

/-- Decodes the framed edit body after compression handling (src
    codec/edit.rs decode_edit from the reader on): skips the magic, checks
    the version, reads header, dictionaries and ops. -/
def decode_edit_body (data : Bytes) : Except DecodeError Edit := do
  let (_, r0) ← read_bytes 4 ("magic") data
  let (version, r1) ← read_byte ("version") r0
  if version ≠ FORMAT_VERSION then .error (.unsupportedVersion version)
  else do
    let (edit_id, r2) ← read_id ("edit_id") r1
    let (name, r3) ← read_str MAX_STRING_LEN ("name") r2
    let (authors, r4) ← read_id_vec MAX_AUTHORS ("authors") r3
    let (created_at, r5) ← read_signed_varint ("created_at") r4
    let (property_count, r6) ← read_varint ("property_count") r5
    if property_count > MAX_DICT_SIZE then
      .error (.lengthExceedsLimit ("properties") property_count MAX_DICT_SIZE)
    else do
      let (properties, r7) ← decode_properties property_count r6
      let (relation_types, r8) ← read_id_vec MAX_DICT_SIZE ("relation_types") r7
      let (languages, r9) ← read_id_vec MAX_DICT_SIZE ("languages") r8
      let (objects, r10) ← read_id_vec MAX_DICT_SIZE ("objects") r9
      let dicts : WireDictionaries :=
        { properties := properties
          relation_types := relation_types
          languages := languages
          objects := objects }
      let (op_count, r11) ← read_varint ("op_count") r10
      if op_count > MAX_OPS_PER_EDIT then
        .error (.lengthExceedsLimit ("ops") op_count MAX_OPS_PER_EDIT)
      else do
        let (ops, _) ← decode_ops op_count dicts r11
        return { id := edit_id, name := name, authors := authors
                 created_at := created_at, ops := ops }

/-- External zstd decompressor, abstracted: the zstd stream format is a
    third-party library, so decoding is a parameter. -/
abbrev ZstdDecode := Bytes → Except String Bytes

/-- Decompression wrapper (src codec/edit.rs decompress_zstd): reads the
    declared uncompressed size, rejects it against the edit-size ceiling
    BEFORE running the decompressor, and rejects a realized length that
    differs from the declared one. -/
def decompress_zstd (z : ZstdDecode) (compressed : Bytes) :
    Except DecodeError Bytes :=
  match read_varint ("uncompressed_size") compressed with
  | .error e => .error e
  | .ok (declaredSize, rest) =>
    if declaredSize > MAX_EDIT_SIZE then
      .error (.lengthExceedsLimit ("uncompressed_size") declaredSize MAX_EDIT_SIZE)
    else
      match z rest with
      | .error msg => .error (.decompressionFailed msg)
      | .ok decompressed =>
        if decompressed.length ≠ declaredSize then
          .error (.uncompressedSizeMismatch declaredSize decompressed.length)
        else .ok decompressed

/-- Decodes an Edit from binary data (src codec/edit.rs decode_edit),
    auto-detecting zstd compression by the GRC2Z magic. -/
def decode_edit (z : ZstdDecode) (input : Bytes) : Except DecodeError Edit := do
  if input.length < 4 then .error (.unexpectedEof ("magic"))
  else if input.length ≥ 5 ∧ input.take 5 = MAGIC_COMPRESSED then do
    let decompressed ← decompress_zstd z (input.drop 5)
    if decompressed.length > MAX_EDIT_SIZE then
      .error (.lengthExceedsLimit ("edit") decompressed.length MAX_EDIT_SIZE)
    else decode_edit_body decompressed
  else if input.take 4 = MAGIC_UNCOMPRESSED then
    if input.length > MAX_EDIT_SIZE then
      .error (.lengthExceedsLimit ("edit") input.length MAX_EDIT_SIZE)
    else decode_edit_body input
  else .error (.invalidMagic (input.take 4))

/-- Schema context for semantic validation (src validate/mod.rs): known
    property data types. -/
structure SchemaContext where
  properties : PropertyTypes := []
deriving DecidableEq, Repr

/-- Registers a property with its data type (src validate/mod.rs). -/
def SchemaContext.add_property (s : SchemaContext) (id : Id) (dt : DataType) :
    SchemaContext :=
  { properties := ptInsert s.properties id dt }

/-- Data type of a property, if known (src validate/mod.rs). -/
def SchemaContext.get_property_type (s : SchemaContext) (id : Id) :
    Option DataType :=
  ptGet s.properties id

/-- Validates that property values match their declared types; unknown
    properties are permitted (src validate/mod.rs
    validate_property_values). -/
def validate_property_values (values : List PropertyValue)
    (schema : SchemaContext) : Except ValidationError Unit :=
  match values with
  | [] => .ok ()
  | pv :: rest =>
    match schema.get_property_type pv.property with
    | some expected =>
      if pv.value.dataType ≠ expected then
        .error (.typeMismatch pv.property expected)
      else validate_property_values rest schema
    | none => validate_property_values rest schema

/-- Validation walk over the ops, threading the local schema; the
    consistency test for CreateProperty is made against the ORIGINAL
    caller-supplied schema, as in src validate/mod.rs. -/
def validate_ops (schema : SchemaContext) :
    List Op → SchemaContext → Except ValidationError Unit
  | [], _ => .ok ()
  | op :: rest, localSchema =>
    match op with
    | .createProperty cp =>
      match schema.get_property_type cp.id with
      | some existing =>
        if existing ≠ cp.data_type then
          .error (.dataTypeInconsistent cp.id existing cp.data_type)
        else validate_ops schema rest (localSchema.add_property cp.id cp.data_type)
      | none => validate_ops schema rest (localSchema.add_property cp.id cp.data_type)
    | .createEntity ce => do
      let _ ← validate_property_values ce.values localSchema
      validate_ops schema rest localSchema
    | .updateEntity ue => do
      let _ ← validate_property_values ue.set_properties localSchema
      let _ ← validate_property_values ue.add_values localSchema
      let _ ← validate_property_values ue.remove_values localSchema
      validate_ops schema rest localSchema
    | _ => validate_ops schema rest localSchema

/-- Validates an edit against a schema context (src validate/mod.rs
    validate_edit): CreateProperty declarations are checked for consistency
    and adopted into a local schema; the value lists of CreateEntity and
    UpdateEntity are type-checked; nothing else is inspected. -/
def validate_edit (edit : Edit) (schema : SchemaContext) :
    Except ValidationError Unit :=
  validate_ops schema edit.ops schema

/-- Claim C8 shape (from the claim's words): year part of at least 4
    all-numeric digits, with optional leading hyphen for BCE except
    all-zero BCE years. -/
def claimYearOk (y : Bytes) (neg : Bool) : Bool :=
  decide (4 ≤ y.length) && y.all isAsciiDigit &&
    !(neg && y.all (fun c => c = 48))

/-- Claim C8 shape (from the claim's words): month of 2 digits in 01..12. -/
def claimMonthOk (m : Bytes) : Bool :=
  decide (m.length = 2) && m.all isAsciiDigit &&
    decide (1 ≤ digitsToNat m) && decide (digitsToNat m ≤ 12)

/-- Claim C8 shape (from the claim's words): day of 2 digits in 01..max of
    the month, February allowing 29. -/
def claimDayOk (d : Bytes) (month : Nat) : Bool :=
  decide (d.length = 2) && d.all isAsciiDigit &&
    decide (1 ≤ digitsToNat d) && decide (digitsToNat d ≤ maxDayOfMonth month)

/-- Claim C8 general acceptance shape, as the claim states it (split on
    hyphens into one to three components). -/
def claimDateShape (s : Bytes) : Bool :=
  if s = [] then false
  else
    let neg := decide (s.head? = some 45)
    let rest := if s.head? = some 45 then s.tail else s
    match splitDash rest with
    | [y] => claimYearOk y neg
    | [y, m] => claimYearOk y neg && claimMonthOk m
    | [y, m, d] =>
      claimYearOk y neg && claimMonthOk m && claimDayOk d (digitsToNat m)
    | _ => false

/-- Year value fits an unsigned 32-bit integer (the amendment forced on
    claim C8 by the u32 parse in the source). -/
def yearFitsU32 (s : Bytes) : Bool :=
  if s = [] then true
  else
    let rest := if s.head? = some 45 then s.tail else s
    match splitDash rest with
    | y :: _ => decide (digitsToNat y < 2 ^ 32)
    | _ => true

/-- Amended claim C8 acceptance shape: the claim's shape with the year
    value additionally required to fit in u32. -/
def dateShapeU32 (s : Bytes) : Bool :=
  claimDateShape s && yearFitsU32 s

/-- Fixture for claim C1: an edit whose single op is a CreateProperty for a
    property that never carries a value. -/
def c1Edit : Edit :=
  { id := List.replicate 16 1, name := [], authors := [], created_at := 0,
    ops := [.createProperty ⟨List.replicate 16 10, .text⟩] }

/-- Wire bytes produced for the claim C1 fixture: magic, version, header,
    four empty dictionaries, one op whose property index points past the
    empty properties dictionary. -/
def c1Bytes : Bytes :=
  MAGIC_UNCOMPRESSED ++ [1] ++ List.replicate 16 1 ++
    [0, 0, 0, 0, 0, 0, 0, 1, 1, 0]

/-- Zstd oracle that refuses every input (decompression is external). -/
def zstdRefuse : ZstdDecode := fun _ => .error ("unused")

/-- Zstd oracle producing a fixed one-byte output. -/
def zstdOneByte : ZstdDecode := fun _ => .ok [0]

/-- Passive operations of claim C10: relation operations, entity deletion,
    and entity updates whose three value lists are empty. -/
def opPassive : Op → Bool
  | .createRelation _ => true
  | .updateRelation _ => true
  | .deleteRelation _ => true
  | .deleteEntity _ => true
  | .updateEntity ue =>
    ue.set_properties.isEmpty && ue.add_values.isEmpty &&
      ue.remove_values.isEmpty
  | _ => false

/-- Fixture for claim C10: an edit made only of passive operations,
    including an update that only unsets a property known to the schema. -/
def c10Edit : Edit :=
  { id := List.replicate 16 4, name := [], authors := [], created_at := 0,
    ops := [.createRelation ⟨.unique, List.replicate 16 1, List.replicate 16 2,
              List.replicate 16 3, none, none⟩,
            .updateRelation ⟨List.replicate 16 1, none, some true⟩,
            .deleteRelation ⟨List.replicate 16 2⟩,
            .deleteEntity ⟨List.replicate 16 1⟩,
            .updateEntity ⟨List.replicate 16 5, [], [], [],
              [List.replicate 16 6]⟩] }

/-- Fixture schema for claim C10. -/
def c10Schema : SchemaContext :=
  ⟨[(List.replicate 16 6, DataType.int64)]⟩

/-- Fixture for claim C9: sixteen repetitions of plus-sign then digit one,
    32 characters in total, none of them a hyphen or a hex digit pair. -/
def plusOnes : Bytes :=
  [43, 49, 43, 49, 43, 49, 43, 49, 43, 49, 43, 49, 43, 49, 43, 49,
   43, 49, 43, 49, 43, 49, 43, 49, 43, 49, 43, 49, 43, 49, 43, 49]

/-- C1: the edit round-trip is broken for a valid edit whose ops contain a
    CreateProperty for a property that never carries a value: the first
    pass (collect_edit_ids) does not intern the property, so the header
    declares an empty properties dictionary while the op body references
    index 0, and decode_edit fails with IndexOutOfBounds instead of
    returning the edit.  The semantic validator accepts the edit, and the
    failure is independent of the zstd oracle since the frame is
    uncompressed. -/
theorem c1_roundtrip_fails_on_unvalued_createproperty :
    encode_edit c1Edit = .ok c1Bytes ∧
    validate_edit c1Edit {} = .ok () ∧
    (∀ z : ZstdDecode,
      decode_edit z c1Bytes = .error (.indexOutOfBounds ("properties") 0 0)) := by
  exact ⟨by decide, by decide, fun z => rfl⟩

/-- C2 counterexample: decode_value cannot decode Timestamp (code 7) or Ref
    (code 11): the section-3 table (DataType.from_u8 of src model/value.rs)
    assigns those codes, but the codec data-type enumeration that
    decode_value dispatches on consists exactly of the ten constructors
    below, with Schedule in place of Timestamp and no Ref at all. -/
theorem c2_counterexample :
    DataType.from_u8 7 = some DataType.timestamp ∧
    DataType.from_u8 11 = some DataType.ref ∧
    (Finset.univ : Finset Codec.DataType) =
      {Codec.DataType.bool, Codec.DataType.int64, Codec.DataType.float64,
       Codec.DataType.decimal, Codec.DataType.text, Codec.DataType.bytes,
       Codec.DataType.date, Codec.DataType.schedule, Codec.DataType.point,
       Codec.DataType.embedding} := by
  exact ⟨rfl, rfl, by decide⟩

/-- C2 amended: decode_value dispatches on the codec data-type enumeration,
    in which Schedule replaces Timestamp and Ref is absent; the section-3
    table still maps 7 to Timestamp and 11 to Ref; for the data types that
    are present, decoding follows the dictionary-declared type, e.g. a
    Schedule or Date as a length-prefixed string and an Int64 as a zigzag
    varint with unit index. -/
theorem c2_amended_dispatch :
    (Finset.univ : Finset Codec.DataType) =
      {Codec.DataType.bool, Codec.DataType.int64, Codec.DataType.float64,
       Codec.DataType.decimal, Codec.DataType.text, Codec.DataType.bytes,
       Codec.DataType.date, Codec.DataType.schedule, Codec.DataType.point,
       Codec.DataType.embedding} ∧
    DataType.from_u8 7 = some DataType.timestamp ∧
    DataType.from_u8 11 = some DataType.ref ∧
    Codec.decode_value .schedule {} [3, 97, 98, 99]
      = .ok (.schedule [97, 98, 99], []) ∧
    Codec.decode_value .date {} [4, 50, 48, 50, 52]
      = .ok (.date [50, 48, 50, 52], []) ∧
    Codec.decode_value .int64 {} [4, 0] = .ok (.int64 2 none, []) := by
  exact ⟨by decide, rfl, rfl, by decide, by decide, by decide⟩

/-- C3: NaN is rejected when encoding a Float64, but decode_value with
    DataType Float64 ACCEPTS a quiet-NaN payload (bit pattern
    0x7FF8000000000000, bytes 00 00 00 00 00 00 F8 7F followed by unit
    index 0) and returns it as a value: decode_float64 performs no NaN
    check, contradicting the claim's decode half. -/
theorem c3_decode_accepts_nan :
    Codec.decode_value .float64 {} [0, 0, 0, 0, 0, 0, 248, 127, 0]
      = .ok (.float64 9221120237041090560 none, []) ∧
    f64IsNan 9221120237041090560 = true ∧
    Codec.encode_value (.float64 9221120237041090560 none) {}
      = .error .floatIsNan := by
  exact ⟨by decide, by decide, by decide⟩

/-- C5: Value.validate accepts the decimal with big mantissa byte 0x0A,
    which represents 10 and is divisible by 10: has_trailing_zeros only
    inspects whether the final byte is zero for the big form, so the
    claimed rejection of divisible-by-10 big mantissas does not happen; the
    zero-exponent rule and the i64 divisibility rule are enforced. -/
theorem c5_validate_accepts_big_ten :
    (Value.decimal 0 (.big [10])).validate = none ∧
    twosComplementInt [10] = 10 ∧
    is_big_mantissa_divisible_by_10 [10] = true ∧
    (Value.decimal 1 (.i64 0)).validate.isSome = true ∧
    (Value.decimal 0 (.i64 1230)).validate.isSome = true ∧
    (Value.decimal (-2) (.i64 1234)).validate = none := by
  exact ⟨by decide, by decide, by decide, by decide, by decide, by decide⟩

/-- C6: the decoder enforces cleared unused bits of the final byte of a
    binary embedding with dims not a multiple of 8 (dims 9 with data 7F 80
    fails, data 7F 01 succeeds), but the ENCODER does not: encode_value
    accepts the embedding whose final byte has a non-zero unused bit and
    emits it unchanged, contradicting the claim's encoder half. -/
theorem c6_encoder_accepts_dirty_tail :
    Codec.decode_value .embedding {} [2, 9, 127, 128]
      = .error (.malformedEncoding ("binary embedding has non-zero unused bits")) ∧
    Codec.decode_value .embedding {} [2, 9, 127, 1]
      = .ok (.embedding .binary 9 [127, 1], []) ∧
    Codec.encode_value (.embedding .binary 9 [127, 128]) {}
      = .ok ([2, 9, 127, 128], {}) := by
  exact ⟨by decide, by decide, by decide⟩

/-- C8 counterexample: the ten-digit year 9999999999 satisfies the claim's
    general acceptance shape (at least four all-numeric digits, no month or
    day part) but the validator rejects it, because the source parses the
    year with u32 parse and 9999999999 overflows 32 bits. -/
theorem c8_counterexample :
    claimDateShape [57, 57, 57, 57, 57, 57, 57, 57, 57, 57] = true ∧
    (validate_iso8601_date [57, 57, 57, 57, 57, 57, 57, 57, 57, 57]).isOk
      = false := by
  exact ⟨by decide, by decide⟩

/-- C9 counterexample: a 32-character string of sixteen plus-one pairs
    contains no hexadecimal digits pairs in the claimed sense (the plus
    sign is not a hex digit), yet parse_id accepts it, because each
    two-character chunk is parsed with u8 from_str_radix which allows a
    leading plus sign. -/
theorem c9_counterexample :
    parse_id plusOnes = some (List.replicate 16 1) ∧
    (plusOnes.filter (fun c => c ≠ 45)).length = 32 ∧
    hexVal 43 = none := by
  exact ⟨by decide, by decide, by decide⟩

/-- Validation walk returns ok on a list of passive ops, for every local
    schema state. -/
theorem validate_ops_passive (schema : SchemaContext) (ops : List Op)
    (h : ∀ op ∈ ops, opPassive op = true) :
    ∀ ls : SchemaContext, validate_ops schema ops ls = .ok () := by
  induction ops with
  | nil => intro ls; rfl
  | cons op rest ih =>
    intro ls
    have hop : opPassive op = true := h op (List.mem_cons_self op rest)
    have hrest : ∀ o ∈ rest, opPassive o = true :=
      fun o ho => h o (List.mem_cons_of_mem op ho)
    cases op with
    | createProperty cp => simp [opPassive] at hop
    | createEntity ce => simp [opPassive] at hop
    | updateEntity ue =>
      simp only [opPassive, Bool.and_eq_true, List.isEmpty_iff] at hop
      obtain ⟨⟨h1, h2⟩, h3⟩ := hop
      simp only [validate_ops, h1, h2, h3, validate_property_values]
      exact ih hrest ls
    | deleteEntity de =>
      simp only [validate_ops]
      exact ih hrest ls
    | createRelation cr =>
      simp only [validate_ops]
      exact ih hrest ls
    | updateRelation ur =>
      simp only [validate_ops]
      exact ih hrest ls
    | deleteRelation dr =>
      simp only [validate_ops]
      exact ih hrest ls

/-- C10: validate_edit type-checks only CreateProperty declarations and the
    value lists of CreateEntity and UpdateEntity; it inspects neither
    unset_properties nor relation or delete operations, so every edit whose
    ops are all relation operations, entity deletions, or entity updates
    with empty set/add/remove lists (arbitrary unset lists) validates ok
    against every schema context; the embedded validator is a pure function
    of the edit and schema, so the caller's schema is unchanged. -/
theorem c10_passive_ops_validate_ok (schema : SchemaContext) (edit : Edit)
    (h : ∀ op ∈ edit.ops, opPassive op = true) :
    validate_edit edit schema = .ok () :=
  validate_ops_passive schema edit.ops h schema

/-- C10 witness: a concrete passive edit (including an unset-only entity
    update) validates ok against a concrete schema. -/
theorem c10_witness : validate_edit c10Edit c10Schema = .ok () :=
  c10_passive_ops_validate_ok c10Schema c10Edit (by decide)

/-- C7: on a compressed frame whose declared uncompressed size is
    1000000000, exceeding MAX_EDIT_SIZE, decode_edit fails with
    LengthExceedsLimit for field uncompressed_size whatever the zstd
    decompressor would do (it is never consulted); and whenever the
    decompressor runs and yields a length different from the declared one,
    decompress_zstd fails with UncompressedSizeMismatch carrying both
    lengths. -/
theorem c7_size_guards :
    (∀ (z : ZstdDecode) (tail : Bytes),
      decode_edit z (MAGIC_COMPRESSED ++ write_varint 1000000000 ++ tail)
        = .error (.lengthExceedsLimit ("uncompressed_size") 1000000000
            MAX_EDIT_SIZE)) ∧
    (∀ (z : ZstdDecode) (input rest : Bytes) (declared : Nat),
      read_varint ("uncompressed_size") input = .ok (declared, rest) →
      declared > MAX_EDIT_SIZE →
      decompress_zstd z input
        = .error (.lengthExceedsLimit ("uncompressed_size") declared
            MAX_EDIT_SIZE)) ∧
    (∀ (z : ZstdDecode) (input rest out : Bytes) (declared : Nat),
      read_varint ("uncompressed_size") input = .ok (declared, rest) →
      declared ≤ MAX_EDIT_SIZE →
      z rest = .ok out →
      out.length ≠ declared →
      decompress_zstd z input
        = .error (.uncompressedSizeMismatch declared out.length)) := by
  refine ⟨?_, ?_, ?_⟩
  · intro z tail
    rfl
  · intro z input rest declared hrv hgt
    simp only [decompress_zstd, hrv]
    rw [if_pos hgt]
  · intro z input rest out declared hrv hle hz hne
    simp only [decompress_zstd, hrv, hz]
    rw [if_neg (by omega), if_pos hne]

/-- C7 witness: the first guard at the empty tail with a refusing oracle,
    and the mismatch guard at declared size 100 against a one-byte
    output. -/
theorem c7_witness :
    decode_edit zstdRefuse (MAGIC_COMPRESSED ++ write_varint 1000000000 ++ [])
      = .error (.lengthExceedsLimit ("uncompressed_size") 1000000000
          MAX_EDIT_SIZE) ∧
    decompress_zstd zstdOneByte [100, 7]
      = .error (.uncompressedSizeMismatch 100 1) :=
  ⟨c7_size_guards.1 zstdRefuse [],
   c7_size_guards.2.2 zstdOneByte [100, 7] [7] [0] 100 (by decide) (by decide)
     rfl (by decide)⟩

/-- The remainder recurrence over big-endian bytes computes the unsigned
    value modulo 10, because 256 is congruent to 6 modulo 10. -/
theorem foldRem_eq (bytes : Bytes) : ∀ init : Nat,
    bytes.foldl (fun r b => (r * 6 + b) % 10) (init % 10)
      = (bytes.foldl (fun acc b => acc * 256 + b) init) % 10 := by
  induction bytes with
  | nil => intro init; rfl
  | cons b bs ih =>
    intro init
    have h : ((init % 10) * 6 + b) % 10 = (init * 256 + b) % 10 := by omega
    calc List.foldl (fun r b => (r * 6 + b) % 10) (init % 10) (b :: bs)
        = List.foldl (fun r b => (r * 6 + b) % 10)
            (((init % 10) * 6 + b) % 10) bs := rfl
      _ = List.foldl (fun r b => (r * 6 + b) % 10)
            ((init * 256 + b) % 10) bs := by rw [h]
      _ = (List.foldl (fun acc b => acc * 256 + b) (init * 256 + b) bs) % 10 :=
            ih (init * 256 + b)
      _ = (List.foldl (fun acc b => acc * 256 + b) init (b :: bs)) % 10 := rfl

/-- Folding the place-value recurrence from an initial accumulator shifts
    the accumulator by the full power of 256. -/
theorem bigU_shift (bs : Bytes) : ∀ init : Nat,
    bs.foldl (fun acc b => acc * 256 + b) init
      = init * 256 ^ bs.length + bigU bs := by
  induction bs with
  | nil => intro init; simp [bigU]
  | cons b bs ih =>
    intro init
    have h2 : bigU (b :: bs) = b * 256 ^ bs.length + bigU bs := by
      have hb := ih b
      simpa [bigU] using hb
    calc List.foldl (fun acc b => acc * 256 + b) init (b :: bs)
        = List.foldl (fun acc b => acc * 256 + b) (init * 256 + b) bs := rfl
      _ = (init * 256 + b) * 256 ^ bs.length + bigU bs := ih (init * 256 + b)
      _ = init * 256 ^ (b :: bs).length + bigU (b :: bs) := by
            rw [h2, List.length_cons, pow_succ]; ring

/-- Unsigned value of a cons in terms of the tail. -/
theorem bigU_cons (b : Nat) (bs : Bytes) :
    bigU (b :: bs) = b * 256 ^ bs.length + bigU bs := by
  have hb := bigU_shift bs b
  simpa [bigU] using hb

/-- The unsigned value of a byte string is below the full power of 256. -/
theorem bigU_lt (bs : Bytes) (h : ∀ b ∈ bs, b < 256) :
    bigU bs < 256 ^ bs.length := by
  induction bs with
  | nil => simp [bigU]
  | cons b bs ih =>
    have hb : b < 256 := h b (List.mem_cons_self b bs)
    have hbs : ∀ x ∈ bs, x < 256 := fun x hx => h x (List.mem_cons_of_mem b hx)
    have h1 : bigU bs < 256 ^ bs.length := ih hbs
    have hbp : b * 256 ^ bs.length ≤ 255 * 256 ^ bs.length :=
      Nat.mul_le_mul_right _ (by omega)
    rw [bigU_cons, List.length_cons, pow_succ]
    omega

/-- The unsigned value of the bytewise complement is the complement of the
    unsigned value. -/
theorem bigU_compl (bs : Bytes) (h : ∀ b ∈ bs, b < 256) :
    bigU (bs.map (fun b => 255 - b)) = 256 ^ bs.length - 1 - bigU bs := by
  induction bs with
  | nil => simp [bigU]
  | cons b bs ih =>
    have hb : b < 256 := h b (List.mem_cons_self b bs)
    have hbs : ∀ x ∈ bs, x < 256 := fun x hx => h x (List.mem_cons_of_mem b hx)
    have hU : bigU bs < 256 ^ bs.length := bigU_lt bs hbs
    have hP : 0 < 256 ^ bs.length := Nat.pos_pow_of_pos _ (by omega)
    have hsm : (255 - b) * 256 ^ bs.length
        = 255 * 256 ^ bs.length - b * 256 ^ bs.length := Nat.sub_mul 255 b _
    have hbp : b * 256 ^ bs.length ≤ 255 * 256 ^ bs.length :=
      Nat.mul_le_mul_right _ (by omega)
    rw [List.map_cons, bigU_cons, bigU_cons, List.length_map, ih hbs,
      List.length_cons, pow_succ]
    omega

/-- The inverted-byte recurrence with the final increment computes the
    absolute value modulo 10 of the represented negative number. -/
theorem twos_complement_abs_eq (bs : Bytes) (h : ∀ b ∈ bs, b < 256) :
    twos_complement_abs_mod_10 bs = (256 ^ bs.length - bigU bs) % 10 := by
  have h1 : bs.foldl (fun r b => (r * 6 + (255 - b)) % 10) 0
      = (bs.map (fun b => 255 - b)).foldl (fun r b => (r * 6 + b) % 10) 0 := by
    rw [List.foldl_map]
  have h2 := foldRem_eq (bs.map (fun b => 255 - b)) 0
  have hfold : bs.foldl (fun r b => (r * 6 + (255 - b)) % 10) 0
      = bigU (bs.map (fun b => 255 - b)) % 10 := by
    rw [h1]
    simpa [bigU] using h2
  have hU : bigU bs < 256 ^ bs.length := bigU_lt bs h
  unfold twos_complement_abs_mod_10
  rw [hfold, bigU_compl bs h]
  omega

/-- Correctness of the two's-complement divisibility-by-10 test: for every
    non-empty byte string it answers whether the represented signed integer
    is divisible by 10. -/
theorem is_big_div10_correct (bytes : Bytes) (hne : bytes ≠ [])
    (h : ∀ b ∈ bytes, b < 256) :
    (is_big_mantissa_divisible_by_10 bytes = true ↔
      (10 : Int) ∣ twosComplementInt bytes) := by
  obtain ⟨b0, bs, rfl⟩ : ∃ b0 bs, bytes = b0 :: bs := by
    cases bytes with
    | nil => exact absurd rfl hne
    | cons a l => exact ⟨a, l, rfl⟩
  have hpow : ((256 ^ (b0 :: bs).length : Nat) : Int)
      = (2 : Int) ^ (8 * (b0 :: bs).length) := by
    rw [Nat.cast_pow, pow_mul]
    norm_num
  have hred : is_big_mantissa_divisible_by_10 (b0 :: bs)
      = (if 128 ≤ b0 then decide (twos_complement_abs_mod_10 (b0 :: bs) = 0)
         else decide (posFoldRem (b0 :: bs) = 0)) := rfl
  by_cases hneg : 128 ≤ b0
  · have hU : bigU (b0 :: bs) < 256 ^ (b0 :: bs).length := bigU_lt _ h
    have habs := twos_complement_abs_eq (b0 :: bs) h
    have htc : twosComplementInt (b0 :: bs)
        = (bigU (b0 :: bs) : Int) - 2 ^ (8 * (b0 :: bs).length) := by
      unfold twosComplementInt
      rw [if_pos (by simpa using hneg)]
    rw [hred, if_pos hneg, htc, habs]
    rw [decide_eq_true_iff, ← Nat.dvd_iff_mod_eq_zero,
      ← Int.natCast_dvd_natCast, Nat.cast_sub (le_of_lt hU), hpow]
    exact dvd_sub_comm
  · have hps : posFoldRem (b0 :: bs) = bigU (b0 :: bs) % 10 := by
      have h2 := foldRem_eq (b0 :: bs) 0
      simpa [posFoldRem, bigU] using h2
    have htc : twosComplementInt (b0 :: bs) = (bigU (b0 :: bs) : Int) := by
      unfold twosComplementInt
      rw [if_neg (by simpa using hneg)]
    rw [hred, if_neg hneg, htc]
    rw [decide_eq_true_iff, hps, ← Nat.dvd_iff_mod_eq_zero]
    exact (Int.natCast_dvd_natCast).symm

/-- C4: the big-mantissa divisibility check is correct — for every
    non-empty big-endian two's-complement byte string it returns true
    exactly when the represented signed integer is divisible by 10 — and
    consequently encode_decimal fails with DecimalNotNormalized on a
    non-zero big mantissa exactly when it is divisible by 10, with the
    decoder mirroring the check; in particular 0x0A (10), 0xF6 (-10) and
    0xEC (-20) are rejected while 0x07 is accepted. -/
theorem c4_big_divisibility :
    (∀ bytes : Bytes, bytes ≠ [] → (∀ b ∈ bytes, b < 256) →
      (is_big_mantissa_divisible_by_10 bytes = true ↔
        (10 : Int) ∣ twosComplementInt bytes)) ∧
    (∀ (exponent : Int) (bs : Bytes), is_big_mantissa_zero bs = false →
      (is_big_mantissa_divisible_by_10 bs = true →
        Codec.encode_decimal exponent (.big bs)
          = .error .decimalNotNormalized) ∧
      (is_big_mantissa_divisible_by_10 bs = false →
        Codec.encode_decimal exponent (.big bs)
          = .ok (write_signed_varint exponent ++ [1] ++
              write_varint bs.length ++ bs))) ∧
    Codec.encode_decimal 0 (.big [10]) = .error .decimalNotNormalized ∧
    Codec.encode_decimal 0 (.big [246]) = .error .decimalNotNormalized ∧
    Codec.encode_decimal 0 (.big [236]) = .error .decimalNotNormalized ∧
    Codec.encode_decimal 0 (.big [7]) = .ok [0, 1, 1, 7] ∧
    Codec.decode_decimal {} [0, 1, 1, 10, 0]
      = .error .decimalNotNormalized ∧
    twosComplementInt [10] = 10 ∧ twosComplementInt [246] = -10 ∧
    twosComplementInt [236] = -20 ∧ twosComplementInt [7] = 7 := by
  refine ⟨is_big_div10_correct, ?_, by decide, by decide, by decide,
    by decide, by decide, by decide, by decide, by decide, by decide⟩
  intro exponent bs hz
  constructor
  · intro hd
    simp [Codec.encode_decimal, Codec.check_decimal_normalized, hz, hd]
  · intro hd
    simp [Codec.encode_decimal, Codec.check_decimal_normalized, hz, hd]

/-- C4 witness: the divisibility equivalence applied at the byte 0x0A,
    representing 10, and the encoder characterization applied at the
    mantissa 0x07. -/
theorem c4_witness :
    (is_big_mantissa_divisible_by_10 [10] = true ↔
      (10 : Int) ∣ twosComplementInt [10]) ∧
    Codec.encode_decimal 3 (.big [7])
      = .ok (write_signed_varint 3 ++ [1] ++ write_varint 1 ++ [7]) :=
  ⟨c4_big_divisibility.1 [10] (by decide) (by decide),
   (c4_big_divisibility.2.1 3 [7] (by decide)).2 (by decide)⟩

/-- A successful hex-digit valuation comes from a byte of at least 48 and
    yields a nibble. -/
theorem hexVal_isSome_bounds (b v : Nat) (h : hexVal b = some v) :
    48 ≤ b ∧ v < 16 := by
  unfold hexVal at h
  split_ifs at h <;> simp_all <;> omega

/-- Parsing a two-byte chunk of hex digits yields the byte value. -/
theorem fromStrRadix16_pair (a b va vb : Nat) (ha : hexVal a = some va)
    (hb : hexVal b = some vb) :
    fromStrRadix16U8 [a, b] = some (va * 16 + vb) := by
  obtain ⟨ha48, halt⟩ := hexVal_isSome_bounds a va ha
  obtain ⟨hb48, hblt⟩ := hexVal_isSome_bounds b vb hb
  have hne : ¬ (([a, b] : Bytes).head? = some 43) := by
    simp only [List.head?_cons, Option.some.injEq]
    omega
  unfold fromStrRadix16U8
  rw [if_neg hne]
  unfold fromHexDigits
  rw [if_neg (by simp)]
  rw [List.mapM_cons, List.mapM_cons, List.mapM_nil, ha, hb]
  simp only [Option.pure_def, Option.bind_eq_bind, Option.some_bind]
  have hfold : List.foldl (fun acc d => acc * 16 + d) 0 [va, vb]
      = va * 16 + vb := by
    simp [List.foldl]
  rw [hfold, if_pos (by omega)]

/-- Every two-byte chunk of a hex-digit string parses, so the whole chunked
    string parses. -/
theorem parse_chunks_all_hex (l : Bytes) :
    (∀ c ∈ l, (hexVal c).isSome = true) → l.length % 2 = 0 →
    ((chunks2 l).mapM fromStrRadix16U8).isSome = true := by
  induction l using chunks2.induct with
  | case1 a b rest ih =>
    intro hall hlen
    have ha : (hexVal a).isSome = true := hall a (by simp)
    have hb : (hexVal b).isSome = true := hall b (by simp)
    obtain ⟨va, hva⟩ := Option.isSome_iff_exists.mp ha
    obtain ⟨vb, hvb⟩ := Option.isSome_iff_exists.mp hb
    have hrest : ∀ c ∈ rest, (hexVal c).isSome = true :=
      fun c hc => hall c (by simp [hc])
    have hlen2 : rest.length % 2 = 0 := by simp at hlen; omega
    have hr := ih hrest hlen2
    obtain ⟨vs, hvs⟩ := Option.isSome_iff_exists.mp hr
    show ((chunks2 (a :: b :: rest)).mapM fromStrRadix16U8).isSome = true
    have hc2 : chunks2 (a :: b :: rest) = [a, b] :: chunks2 rest := rfl
    rw [hc2, List.mapM_cons, fromStrRadix16_pair a b va vb hva hvb]
    simp only [Option.pure_def, Option.bind_eq_bind, Option.some_bind]
    rw [hvs]
    simp
  | case2 a =>
    intro _ hlen
    simp at hlen
  | case3 =>
    intro _ _
    rfl

/-- Hex-formatter digits are at least 48, in particular never a hyphen. -/
theorem hexDigitByte_ge (n : Nat) : 48 ≤ hexDigitByte n := by
  unfold hexDigitByte
  split <;> omega

/-- The hex-digit byte of a nibble evaluates back to the nibble. -/
theorem hexVal_hexDigitByte (n : Nat) (h : n < 16) :
    hexVal (hexDigitByte n) = some n := by
  interval_cases n <;> decide

/-- Formatted identifiers contain no hyphen, so the parser's hyphen filter
    leaves them unchanged. -/
theorem format_id_filter (id : Id) :
    (format_id id).filter (fun c => c ≠ 45) = format_id id := by
  rw [List.filter_eq_self]
  intro c hc
  simp only [format_id, List.mem_flatMap, List.mem_cons,
    List.not_mem_nil, or_false] at hc
  obtain ⟨b, _, hc2⟩ := hc
  have h1 := hexDigitByte_ge (b / 16)
  have h2 := hexDigitByte_ge (b % 16)
  rcases hc2 with rfl | rfl
  · simp only [decide_eq_true_iff]
    omega
  · simp only [decide_eq_true_iff]
    omega

/-- A formatted identifier has two bytes per identifier byte. -/
theorem format_id_length (id : Id) : (format_id id).length = 2 * id.length := by
  induction id with
  | nil => rfl
  | cons b rest ih =>
    show (format_id (b :: rest)).length = 2 * (rest.length + 1)
    have hcons : format_id (b :: rest)
        = hexDigitByte (b / 16) :: hexDigitByte (b % 16) :: format_id rest := rfl
    rw [hcons]
    simp only [List.length_cons, ih]
    omega

/-- Chunked parsing of a formatted identifier recovers the bytes. -/
theorem chunks2_format (id : Id) (h : ∀ b ∈ id, b < 256) :
    (chunks2 (format_id id)).mapM fromStrRadix16U8 = some id := by
  induction id with
  | nil => rfl
  | cons b rest ih =>
    have hb : b < 256 := h b (List.mem_cons_self b rest)
    have hrest : ∀ x ∈ rest, x < 256 := fun x hx => h x (List.mem_cons_of_mem b hx)
    have hpair : fromStrRadix16U8 [hexDigitByte (b / 16), hexDigitByte (b % 16)]
        = some b := by
      rw [fromStrRadix16_pair _ _ _ _ (hexVal_hexDigitByte _ (by omega))
        (hexVal_hexDigitByte _ (by omega))]
      congr 1
      omega
    have hcons : chunks2 (format_id (b :: rest))
        = [hexDigitByte (b / 16), hexDigitByte (b % 16)] :: chunks2 (format_id rest) :=
      rfl
    rw [hcons, List.mapM_cons, hpair]
    simp only [Option.pure_def, Option.bind_eq_bind, Option.some_bind, ih hrest]

/-- C9 amended: parse_id rejects every string whose non-hyphen length
    differs from 32 and accepts every string whose 32 non-hyphen characters
    are all hexadecimal digits; parse_id of format_id is the identity on
    16-byte identifiers; but chunk parsing uses u8 from_str_radix, which
    also accepts a two-character chunk of a plus sign followed by one hex
    digit, so strings such as sixteen plus-one pairs are accepted as
    well. -/
theorem c9_amended_parse :
    (∀ s : Bytes, (s.filter (fun c => c ≠ 45)).length ≠ 32 →
      parse_id s = none) ∧
    (∀ s : Bytes, (s.filter (fun c => c ≠ 45)).length = 32 →
      (∀ c ∈ s.filter (fun c => c ≠ 45), (hexVal c).isSome = true) →
      (parse_id s).isSome = true) ∧
    (∀ id : Id, id.length = 16 → (∀ b ∈ id, b < 256) →
      parse_id (format_id id) = some id) ∧
    parse_id plusOnes = some (List.replicate 16 1) := by
  refine ⟨?_, ?_, ?_, by decide⟩
  · intro s hlen
    simp only [parse_id]
    rw [if_pos hlen]
  · intro s hlen hall
    simp only [parse_id]
    rw [if_neg (by omega)]
    exact parse_chunks_all_hex _ hall (by omega)
  · intro id hlen h
    simp only [parse_id]
    rw [format_id_filter]
    rw [if_neg (by rw [format_id_length, hlen]; omega)]
    exact chunks2_format id h

/-- C9 witness: the round-trip applied at the nil identifier and the length
    rejection applied at the empty string. -/
theorem c9_witness :
    parse_id (format_id NIL_ID) = some NIL_ID ∧ parse_id [] = none :=
  ⟨c9_amended_parse.2.2.1 NIL_ID (by decide) (by decide),
   c9_amended_parse.1 [] (by decide)⟩

/-- The decimal-digit fold is bounded by the power of ten of the length. -/
theorem digitsToNat_aux_lt (s : Bytes) : ∀ init : Nat,
    s.all isAsciiDigit = true →
    s.foldl (fun acc b => acc * 10 + (b - 48)) init
      < (init + 1) * 10 ^ s.length := by
  induction s with
  | nil => intro init _; simp
  | cons b bs ih =>
    intro init hall
    simp only [List.all_cons, Bool.and_eq_true] at hall
    obtain ⟨hb, hbs⟩ := hall
    have hd : b - 48 ≤ 9 := by
      simp only [isAsciiDigit, Bool.and_eq_true, decide_eq_true_iff] at hb
      omega
    calc List.foldl (fun acc b => acc * 10 + (b - 48)) init (b :: bs)
        = List.foldl (fun acc b => acc * 10 + (b - 48))
            (init * 10 + (b - 48)) bs := rfl
      _ < (init * 10 + (b - 48) + 1) * 10 ^ bs.length :=
            ih (init * 10 + (b - 48)) hbs
      _ ≤ ((init + 1) * 10) * 10 ^ bs.length :=
            Nat.mul_le_mul_right _ (by omega)
      _ = (init + 1) * 10 ^ (b :: bs).length := by
            rw [List.length_cons, pow_succ]; ring

/-- A non-empty all-digit string parses as u32 to its digit value when that
    value fits 32 bits. -/
theorem parseU32_digits (s : Bytes) (hne : s ≠ [])
    (hall : s.all isAsciiDigit = true) (hlt : digitsToNat s < 2 ^ 32) :
    parseU32 s = some (digitsToNat s) := by
  have hhead : ¬ (s.head? = some 43) := by
    cases s with
    | nil => simp
    | cons b bs =>
      simp only [List.head?_cons, Option.some.injEq]
      simp only [List.all_cons, Bool.and_eq_true] at hall
      have hb := hall.1
      simp only [isAsciiDigit, Bool.and_eq_true, decide_eq_true_iff] at hb
      omega
  unfold parseU32
  rw [if_neg hhead]
  unfold parseU32Digits
  rw [if_neg hne, if_pos hall, if_pos hlt]

/-- The year validator accepts exactly the claim's year shape once the
    value fits u32, returning the digit value. -/
theorem validate_year_ok (y : Bytes) (neg : Bool)
    (h : claimYearOk y neg = true) (hfit : digitsToNat y < 2 ^ 32) :
    validate_year_part y neg = .ok (digitsToNat y) := by
  simp only [claimYearOk, Bool.and_eq_true, decide_eq_true_iff,
    Bool.not_eq_true'] at h
  obtain ⟨⟨h4, hdig⟩, hz⟩ := h
  have hne : y ≠ [] := by
    intro he
    subst he
    simp at h4
  unfold validate_year_part
  rw [if_neg (by omega), if_neg (by simp [hdig]), if_neg (by simp [hz]),
    parseU32_digits y hne hdig hfit]

/-- The month validator accepts exactly the claim's month shape, returning
    the digit value. -/
theorem validate_month_ok (m : Bytes) (h : claimMonthOk m = true) :
    validate_month_part m = .ok (digitsToNat m) := by
  simp only [claimMonthOk, Bool.and_eq_true, decide_eq_true_iff] at h
  obtain ⟨⟨⟨h2, hdig⟩, h1⟩, h12⟩ := h
  have hne : m ≠ [] := by
    intro he
    subst he
    simp at h2
  have h100 : digitsToNat m < 100 := by
    have hb := digitsToNat_aux_lt m 0 hdig
    rw [h2] at hb
    simpa [digitsToNat] using hb
  have hlt : digitsToNat m < 2 ^ 32 := lt_trans h100 (by norm_num)
  unfold validate_month_part
  rw [if_neg (by omega)]
  rw [parseU32_digits m hne hdig hlt]
  show (if 1 ≤ digitsToNat m ∧ digitsToNat m ≤ 12 then
      Except.ok (digitsToNat m)
    else Except.error (DecodeError.malformedEncoding ("DATE month out of range")))
    = Except.ok (digitsToNat m)
  rw [if_pos ⟨h1, h12⟩]

/-- The day validator accepts exactly the claim's day shape for the given
    month value. -/
theorem validate_day_ok (d : Bytes) (month : Nat)
    (h : claimDayOk d month = true) :
    validate_day_part d month = .ok (digitsToNat d) := by
  simp only [claimDayOk, Bool.and_eq_true, decide_eq_true_iff] at h
  obtain ⟨⟨⟨h2, hdig⟩, h1⟩, hmax⟩ := h
  have hne : d ≠ [] := by
    intro he
    subst he
    simp at h2
  have h100 : digitsToNat d < 100 := by
    have hb := digitsToNat_aux_lt d 0 hdig
    rw [h2] at hb
    simpa [digitsToNat] using hb
  have hlt : digitsToNat d < 2 ^ 32 := lt_trans h100 (by norm_num)
  unfold validate_day_part
  rw [if_neg (by omega)]
  rw [parseU32_digits d hne hdig hlt]
  show (if digitsToNat d = 0 ∨ digitsToNat d > maxDayOfMonth month then
      Except.error (DecodeError.malformedEncoding ("DATE day out of range"))
    else Except.ok (digitsToNat d))
    = Except.ok (digitsToNat d)
  rw [if_neg (by omega)]

/-- Every byte string of the amended shape is accepted by the date
    validator. -/
theorem date_shape_accepted (s : Bytes) (h : dateShapeU32 s = true) :
    (validate_iso8601_date s).isOk = true := by
  rw [dateShapeU32, Bool.and_eq_true] at h
  obtain ⟨hshape, hfit⟩ := h
  by_cases hnil : s = []
  · rw [hnil] at hshape
    simp [claimDateShape] at hshape
  · unfold claimDateShape at hshape
    unfold yearFitsU32 at hfit
    unfold validate_iso8601_date
    rw [if_neg hnil] at hshape hfit ⊢
    dsimp only at hshape hfit ⊢
    rcases hp : splitDash (if s.head? = some 45 then s.tail else s) with
      _ | ⟨y, _ | ⟨m, _ | ⟨d, _ | _⟩⟩⟩
    · rw [hp] at hshape
      simp at hshape
    · rw [hp] at hshape hfit
      simp only [decide_eq_true_iff] at hfit
      simp only [validate_year_ok y _ hshape hfit]
      rfl
    · rw [hp] at hshape hfit
      simp only [decide_eq_true_iff] at hfit
      rw [Bool.and_eq_true] at hshape
      obtain ⟨hy, hm⟩ := hshape
      simp only [validate_year_ok y _ hy hfit, validate_month_ok m hm]
      rfl
    · rw [hp] at hshape hfit
      simp only [decide_eq_true_iff] at hfit
      rw [Bool.and_eq_true, Bool.and_eq_true] at hshape
      obtain ⟨⟨hy, hm⟩, hd⟩ := hshape
      simp only [validate_year_ok y _ hy hfit, validate_month_ok m hm,
        validate_day_ok d (digitsToNat m) hd]
      rfl
    · rw [hp] at hshape
      simp at hshape

/-- C8 amended: the validator accepts and rejects the example strings as
    claimed; generally it accepts every string of the claim's shape whose
    year value additionally fits an unsigned 32-bit integer (the source
    parses the year as u32, so larger all-digit years are rejected; month
    and day parts are parsed with u32 parse as well, which also tolerates a
    leading plus sign in place of the first digit). -/
theorem c8_date_validation :
    validate_iso8601_date [50, 48, 50, 52] = .ok () ∧
    validate_iso8601_date [50, 48, 50, 52, 45, 48, 51] = .ok () ∧
    validate_iso8601_date [50, 48, 50, 52, 45, 48, 51, 45, 49, 53] = .ok () ∧
    validate_iso8601_date [50, 48, 50, 52, 45, 48, 50, 45, 50, 57] = .ok () ∧
    validate_iso8601_date [45, 48, 49, 48, 48] = .ok () ∧
    validate_iso8601_date [45, 48, 49, 48, 48, 45, 48, 51, 45, 49, 53]
      = .ok () ∧
    (validate_iso8601_date []).isOk = false ∧
    (validate_iso8601_date [50, 52]).isOk = false ∧
    (validate_iso8601_date [50, 48, 50, 52, 45, 48, 48]).isOk = false ∧
    (validate_iso8601_date [50, 48, 50, 52, 45, 49, 51]).isOk = false ∧
    (validate_iso8601_date [50, 48, 50, 52, 45, 48, 52, 45, 51, 49]).isOk
      = false ∧
    (validate_iso8601_date [50, 48, 50, 52, 45, 48, 50, 45, 51, 48]).isOk
      = false ∧
    (validate_iso8601_date [45, 48, 48, 48, 48]).isOk = false ∧
    (∀ s : Bytes, dateShapeU32 s = true →
      (validate_iso8601_date s).isOk = true) := by
  refine ⟨by decide, by decide, by decide, by decide, by decide, by decide,
    by decide, by decide, by decide, by decide, by decide, by decide,
    by decide, date_shape_accepted⟩

/-- C8 witness: the general acceptance applied at the concrete string
    2024-03-15. -/
theorem c8_witness :
    (validate_iso8601_date [50, 48, 50, 52, 45, 48, 51, 45, 49, 53]).isOk
      = true :=
  (c8_date_validation.2.2.2.2.2.2.2.2.2.2.2.2.2)
    [50, 48, 50, 52, 45, 48, 51, 45, 49, 53] (by decide)

end Grc20
